import Mathlib

/-!
# Verification of the PDMS data-processing pipeline core

Shallow embedding of the extraction pipeline of the repository
(`pipeline/extraction_pipeline.py`, `pipeline/_pipeline_helpers.py`,
`pipeline/audit_logger.py`, `connection/fetcher.py`, `helpers/hashing.py`,
`schemas/base_schema_out.py`, `schemas/demographics.py`) together with
proofs about the planner, the batched fetch layer, the
validation/normalization/hashing layer and the audit sink.

Python dictionaries are modelled as association lists (one entry per key),
Python `None` as an explicit `Value.vNone` constructor, and machine-level
hashing (`hashlib.sha256`) is embedded as a full executable SHA-256 over
`Nat` with explicit `% 2^32` arithmetic.
-/

set_option autoImplicit false

namespace PDMS


/-- A dynamic value as it appears in a row coming from the DB layer:
`vNone` models Python `None`, `vStr`/`vInt` model strings and numbers,
`vDate y m d` a `datetime.date`, `vDateTime y m d hh mi` a `datetime.datetime`. -/
inductive Value where
  | vNone
  | vStr (s : String)
  | vInt (n : Int)
  | vDate (y m d : Nat)
  | vDateTime (y m d hh mi : Nat)
  deriving DecidableEq

open Value

/-- A row / record: a Python `dict[str, Any]` as an association list
(one entry per key, insertion order preserved, as in CPython). -/
abbrev Row := List (String × Value)

/-- First-match association-list lookup, modelling `dict.__getitem__` /
`dict.get` (a well-formed dict has one entry per key). -/
def alookup {β : Type} (k : String) : List (String × β) → Option β
  | [] => none
  | kv :: rest => if kv.1 = k then some kv.2 else alookup k rest

/-- `data[k] = v` on a dict: replaces the value when the key is present
(keeping its position), appends a new entry otherwise — CPython semantics. -/
def dictSet (r : Row) (k : String) (v : Value) : Row :=
  if (alookup k r).isSome then
    r.map (fun kv => if kv.1 = k then (k, v) else kv)
  else
    r ++ [(k, v)]

/-- Accumulator loop behind `dedupFirst`: `seen` holds the keys already kept. -/
def dedupFirstGo : List String → List String → List String
  | [], _ => []
  | x :: xs, seen => if x ∈ seen then dedupFirstGo xs seen else x :: dedupFirstGo xs (x :: seen)

/-- `list(dict.fromkeys(xs))`: deduplicate keeping the first occurrence of
each element, preserving order. -/
def dedupFirst (l : List String) : List String := dedupFirstGo l []

/-! ## Chunking

`chunksOf k l` splits `l` into consecutive chunks of at most `k` elements;
it is both the block splitter of SHA-256 below and the model of the slice
loop `for i in range(0, n, max_items): seq_list[i : i + max_items]` in
`Fetcher.batched_iter` (`connection/fetcher.py`). -/

def chunksOf {α : Type} (k : Nat) : List α → List (List α)
  | [] => []
  | x :: xs => if k = 0 then [] else (x :: xs).take k :: chunksOf k (xs.drop (k - 1))
termination_by l => l.length
decreasing_by
  simp only [List.length_cons, List.length_drop]
  omega

/-! ## SHA-256 (`hashlib.sha256(...).hexdigest()` in `helpers/hashing.py`)

A full executable embedding over `Nat`, with 32-bit overflow written as
explicit `% 2^32`. -/

/-- Truncation to a 32-bit word. -/
def w32 (n : Nat) : Nat := n % 4294967296

/-- 32-bit right rotation (the argument is assumed `< 2^32`). -/
def rotr32 (n x : Nat) : Nat := (x / 2 ^ n + x % 2 ^ n * 2 ^ (32 - n)) % 4294967296

/-- Logical right shift. -/
def shr32 (n x : Nat) : Nat := x / 2 ^ n

/-- 32-bit complement. -/
def not32 (x : Nat) : Nat := 4294967295 - x % 4294967296

def ch32 (x y z : Nat) : Nat := (x &&& y) ^^^ (not32 x &&& z)

def maj32 (x y z : Nat) : Nat := (x &&& y) ^^^ (x &&& z) ^^^ (y &&& z)

def bsig0 (x : Nat) : Nat := rotr32 2 x ^^^ rotr32 13 x ^^^ rotr32 22 x

def bsig1 (x : Nat) : Nat := rotr32 6 x ^^^ rotr32 11 x ^^^ rotr32 25 x

def ssig0 (x : Nat) : Nat := rotr32 7 x ^^^ rotr32 18 x ^^^ shr32 3 x

def ssig1 (x : Nat) : Nat := rotr32 17 x ^^^ rotr32 19 x ^^^ shr32 10 x

/-- The 64 SHA-256 round constants. -/
def sha256K : List Nat :=
  [1116352408, 1899447441, 3049323471, 3921009573, 961987163, 1508970993, 2453635748,
   2870763221, 3624381080, 310598401, 607225278, 1426881987, 1925078388, 2162078206,
   2614888103, 3248222580, 3835390401, 4022224774, 264347078, 604807628, 770255983,
   1249150122, 1555081692, 1996064986, 2554220882, 2821834349, 2952996808, 3210313671,
   3336571891, 3584528711, 113926993, 338241895, 666307205, 773529912, 1294757372,
   1396182291, 1695183700, 1986661051, 2177026350, 2456956037, 2730485921, 2820302411,
   3259730800, 3345764771, 3516065817, 3600352804, 4094571909, 275423344, 430227734,
   506948616, 659060556, 883997877, 958139571, 1322822218, 1537002063, 1747873779,
   1955562222, 2024104815, 2227730452, 2361852424, 2428436474, 2756734187, 3204031479,
   3329325298]

/-- SHA-256 working state / hash state: eight 32-bit words. -/
structure H8 where
  a : Nat
  b : Nat
  c : Nat
  d : Nat
  e : Nat
  f : Nat
  g : Nat
  h : Nat

/-- Initial SHA-256 hash state. -/
def sha256H0 : H8 :=
  ⟨1779033703, 3144134277, 1013904242, 2773480762, 1359893119, 2600822924, 528734635,
   1541459225⟩

/-- One SHA-256 compression round; `kw` is the pair (round constant, schedule word). -/
def sha256Round (s : H8) (kw : Nat × Nat) : H8 :=
  let t1 := w32 (s.h + bsig1 s.e + ch32 s.e s.f s.g + kw.1 + kw.2)
  let t2 := w32 (bsig0 s.a + maj32 s.a s.b s.c)
  ⟨w32 (t1 + t2), s.a, s.b, s.c, w32 (s.d + t1), s.e, s.f, s.g⟩

/-- Extend a 16-word block to the 64-word message schedule. -/
def extendSchedule (ws : Array Nat) : Array Nat :=
  (List.range 48).foldl
    (fun arr _ =>
      let n := arr.size
      arr.push (w32 (ssig1 (arr.getD (n - 2) 0) + arr.getD (n - 7) 0
        + ssig0 (arr.getD (n - 15) 0) + arr.getD (n - 16) 0)))
    ws

/-- Process one 16-word block. -/
def processBlock (hs : H8) (block : List Nat) : H8 :=
  let w := extendSchedule block.toArray
  let s := (sha256K.zip w.toList).foldl sha256Round hs
  ⟨w32 (hs.a + s.a), w32 (hs.b + s.b), w32 (hs.c + s.c), w32 (hs.d + s.d),
   w32 (hs.e + s.e), w32 (hs.f + s.f), w32 (hs.g + s.g), w32 (hs.h + s.h)⟩

/-- SHA-256 padding: append `0x80`, zeros, and the 64-bit big-endian bit length. -/
def sha256Pad (bytes : List Nat) : List Nat :=
  let l := bytes.length
  let z := (64 - (l + 9) % 64) % 64
  let bitLen := 8 * l
  bytes ++ [128] ++ List.replicate z 0
    ++ (List.range 8).map (fun i => bitLen / 2 ^ (8 * (7 - i)) % 256)

/-- Group bytes into 32-bit big-endian words. -/
def bytesToWords : List Nat → List Nat
  | a :: b :: c :: d :: rest => (((a * 256 + b) * 256 + c) * 256 + d) :: bytesToWords rest
  | _ => []

/-- UTF-8 bytes of a string (`.encode("utf-8")`). -/
def strBytes (s : String) : List Nat := s.toUTF8.toList.map (fun b => b.toNat)

/-- The SHA-256 hash state of a string. -/
def sha256 (s : String) : H8 :=
  (chunksOf 16 (bytesToWords (sha256Pad (strBytes s)))).foldl processBlock sha256H0

/-- Lower-case hexadecimal digit. -/
def hexDigitChar (n : Nat) : Char := if n < 10 then Char.ofNat (48 + n) else Char.ofNat (87 + n)

/-- Eight hex characters of a 32-bit word, most significant nibble first. -/
def hexWord (n : Nat) : List Char :=
  (List.range 8).map (fun i => hexDigitChar (n / 16 ^ (7 - i) % 16))

/-- Hex characters of a full hash state, `h0` through `h7`. -/
def sha256hexChars (hs : H8) : List Char :=
  hexWord hs.a ++ hexWord hs.b ++ hexWord hs.c ++ hexWord hs.d ++ hexWord hs.e
    ++ hexWord hs.f ++ hexWord hs.g ++ hexWord hs.h

/-- `hashlib.sha256(s.encode("utf-8")).hexdigest()`. -/
def sha256hex (s : String) : String := String.mk (sha256hexChars (sha256 s))

/-- Python slice `s[:n]` on a string. -/
def pySlice (s : String) (n : Nat) : String := String.mk (s.toList.take n)

/-- `helpers/hashing.py`: `hash_value(value, salt=..., length=12)`.
Returns `value` unchanged when `salt` is falsy (`None` or `""`), otherwise
the first `length` hex characters of `sha256(salt + value)`. -/
def hash_value (value : String) (salt : Option String) (len : Nat := 12) : String :=
  match salt with
  | none => value
  | some s => if s = "" then value else pySlice (sha256hex (s ++ value)) len

/-! ## Base schema (`schemas/base_schema_out.py`)

`BaseSchema` is modelled as a configuration record (`SchemaConfig`) plus a
validated object represented as a `Row` of its set fields, mirroring the
design note of the spec ("per-field normalization/hashing/exclusion
configuration ... should become explicit per-entity configuration
objects"). -/

/-- A per-field normalization mapping (`normalization_maps[field]`),
a Python `dict[str, Any]` with an optional `"__default__"` entry. -/
abbrev NormMap := List (String × Value)

/-- Zero-padded 2-digit decimal. -/
def pad2 (n : Nat) : String := if n < 10 then "0" ++ toString n else toString n

/-- Zero-padded 4-digit decimal. -/
def pad4 (n : Nat) : String :=
  if n < 10 then "000" ++ toString n
  else if n < 100 then "00" ++ toString n
  else if n < 1000 then "0" ++ toString n
  else toString n

/-- Python `str(value)` for the value model. -/
def pyStr : Value → String
  | Value.vNone => "None"
  | Value.vStr s => s
  | Value.vInt n => toString n
  | Value.vDate y m d => pad4 y ++ "-" ++ pad2 m ++ "-" ++ pad2 d
  | Value.vDateTime y m d hh mi =>
      pad4 y ++ "-" ++ pad2 m ++ "-" ++ pad2 d ++ " " ++ pad2 hh ++ ":" ++ pad2 mi ++ ":00"

/-- Python `str.strip()`: drop leading and trailing whitespace. -/
def pyStrip (s : String) : String :=
  String.mk (((s.toList.dropWhile Char.isWhitespace).reverse.dropWhile
    Char.isWhitespace).reverse)

/-- Python `str.casefold()` (modelled as character-wise lowering). -/
def pyCasefold (s : String) : String := String.mk (s.toList.map Char.toLower)

/-- Whether the value is a string that is empty after trimming
(`isinstance(value, str) and value.strip() == ""`). -/
def isBlankStr : Value → Bool
  | Value.vStr s => pyStrip s = ""
  | _ => false

/-- Lookup in a dict built by a comprehension: on duplicate (folded) keys the
last insertion wins, so look the key up from the right. -/
def lookupLast (l : NormMap) (k : String) : Option Value := alookup k l.reverse

/-- `BaseSchema._normalize_value` (`schemas/base_schema_out.py`):
trim/casefold lookup with `"__default__"` fallback; `None` and blank
strings normalize to `None`; fields without a mapping pass through. -/
def normalize_value (maps : List (String × NormMap)) (field : String) (value : Value) :
    Value :=
  match alookup field maps with
  | none => value
  | some mapping =>
    if value = Value.vNone then Value.vNone
    else if isBlankStr value then Value.vNone
    else
      let folded := (mapping.filter (fun kv => kv.1 ≠ "__default__")).map
        (fun kv => (pyCasefold (pyStrip kv.1), kv.2))
      let key := pyCasefold (pyStrip (pyStr value))
      match lookupLast folded key with
      | some v => v
      | none => (alookup "__default__" mapping).getD value

/-- `BaseSchema._apply_normalization_maps` (a `mode="before"` validator):
rewrite each mapped field that is present in the incoming dict. -/
def apply_normalization_maps (maps : List (String × NormMap)) (r : Row) : Row :=
  maps.foldl
    (fun d fm =>
      match alookup fm.1 d with
      | some v => dictSet d fm.1 (normalize_value maps fm.1 v)
      | none => d)
    r

/-- Static configuration of a schema subclass plus its pydantic machinery:
`structural` is the per-field coercion/validation (returning the model's
set fields in declaration order, or a message), `derive` the
`mode="after"` validator computing derived fields. -/
structure SchemaConfig where
  hashable_fields : List String
  excluded_by_default : List String
  normalization_maps : List (String × NormMap)
  structural : Row → Except String Row
  derive : Row → Row

/-- `BaseSchema.model_validate`: the `mode="before"` normalization runs
first, then structural field validation, then the `mode="after"`
derivation validator. -/
def model_validate (cfg : SchemaConfig) (r : Row) : Except String Row :=
  (cfg.structural (apply_normalization_maps cfg.normalization_maps r)).map cfg.derive

/-- Membership in `BaseSchema._effective_exclude`:
`(excluded_by_default | exclude_set) - include_set` (an empty or absent
`include`/`exclude` is falsy and contributes the empty set). -/
def effectiveExcludeB (cfg : SchemaConfig) (inc exc : Option (List String)) (k : String) :
    Bool :=
  (cfg.excluded_by_default.contains k || (exc.getD []).contains k)
    && !(inc.getD []).contains k

/-- `model_dump(exclude_none=True, exclude_unset=True, exclude=effective)`:
the object `Row` holds exactly the set fields, so the dump keeps the
non-`None`, non-excluded ones in order. -/
def base_model_dump (cfg : SchemaConfig) (inc exc : Option (List String)) (obj : Row) :
    Row :=
  obj.filter (fun kv => !(kv.2 == Value.vNone) && !(effectiveExcludeB cfg inc exc kv.1))

/-- Whether a salt taken from the serialization context is falsy
(`not salt` in Python: `None` or the empty string). -/
def saltFalsy : Option String → Bool
  | none => true
  | some s => s == ""

/-- One assignment `data[field] = hash_value(val, salt=salt)` of the hashing
hook, guarded by `isinstance(val, str)`. -/
def hashStep (s : String) (d : Row) (f : String) : Row :=
  match alookup f d with
  | some (Value.vStr v) => dictSet d f (Value.vStr (hash_value v (some s)))
  | _ => d

/-- `BaseSchema._apply_hashing` (the `mode="wrap"` model serializer): after
the plain dump, when the context salt is truthy and `hashable_fields` is
non-empty, replace each present string-valued hashable field with its
salted hash. -/
def apply_hashing (hashable : List String) (salt : Option String) (data : Row) : Row :=
  if saltFalsy salt || hashable.isEmpty then data
  else
    match salt with
    | none => data
    | some s => hashable.foldl (hashStep s) data

/-- `BaseSchema.dump_clean`: dump with no salt in the context. -/
def dump_clean (cfg : SchemaConfig) (obj : Row) (inc exc : Option (List String)) : Row :=
  apply_hashing cfg.hashable_fields none (base_model_dump cfg inc exc obj)

/-- `BaseSchema.dump_hashed`: dump with `salt` in the serialization context. -/
def dump_hashed (cfg : SchemaConfig) (obj : Row) (salt : String)
    (inc exc : Option (List String)) : Row :=
  apply_hashing cfg.hashable_fields (some salt) (base_model_dump cfg inc exc obj)

/-! ## Fetch layer (`connection/fetcher.py`)

The query function is modelled as a pure function from keyword parameters
to a list of rows (spec §6: "(connectionHandle, **namedParameters) →
iterable of field→value mappings"); the scoped-session side effects of
`get_session()` are tracked as counters (`sessions` opened, query-function
`calls`) so that "single session across all chunks" and "one invocation
per chunk" are value-level facts. -/

/-- A keyword-argument value. `pvSeq` is a plain sequence of identifiers
(list/tuple); `pvStr`, `pvBytes`, `pvDict` are the kinds that
`_is_batchable_sequence` explicitly rejects (their payload is irrelevant
to the fetch layer, which never inspects it). -/
inductive ParamValue where
  | pvNone
  | pvStr (s : String)
  | pvBytes
  | pvDict
  | pvSeq (l : List String)
  deriving DecidableEq

/-- A Python `**params` dict: `none` means the key is absent. -/
abbrev Params := String → Option ParamValue

/-- The empty parameter dict. -/
def pEmpty : Params := fun _ => none

/-- `{**ps, k: v}`. -/
def pset (ps : Params) (k : String) (v : ParamValue) : Params :=
  fun k' => if k' = k then some v else ps k'

/-- `{**a, **b}`: keys of `b` win. -/
def pmerge (a b : Params) : Params :=
  fun k => match b k with
    | some v => some v
    | none => a k

/-- `_is_batchable_sequence`: not `None`, not `str`/`bytes`/`dict`, and a
`Sequence` — in the value model exactly the `pvSeq` constructor. -/
def isBatchableSequence : Option ParamValue → Bool
  | some (ParamValue.pvSeq _) => true
  | _ => false

/-- A query function under an (elided) session handle. -/
abbrev QueryFunc := Params → List Row

/-- `connection/fetcher.py: Fetcher` — query function, pre-bound default
parameters, optional per-row transform. -/
structure Fetcher where
  func : QueryFunc
  defaults : Params
  transform : Option (Row → Row)

/-- `make_fetcher(func)`: no defaults, no transform. -/
def make_fetcher (f : QueryFunc) : Fetcher := ⟨f, pEmpty, none⟩

/-- Apply the optional transform to one row. -/
def applyTransform (t : Option (Row → Row)) (r : Row) : Row :=
  match t with
  | some f => f r
  | none => r

/-- Observable outcome of one access-pattern run: scoped sessions opened,
query-function invocations, and the yielded row sequence. -/
structure RunStats where
  sessions : Nat
  calls : Nat
  rows : List Row
  deriving DecidableEq

/-- `Fetcher.iter(**overrides)`: one scoped session, one query-function
call on `{**defaults, **overrides}`, rows transformed as yielded. -/
def Fetcher.iterRun (fet : Fetcher) (overrides : Params) : RunStats :=
  { sessions := 1, calls := 1,
    rows := (fet.func (pmerge fet.defaults overrides)).map (applyTransform fet.transform) }

/-- `overrides.get(list_param) if list_param in overrides else
defaults.get(list_param)`. -/
def Fetcher.resolveParam (fet : Fetcher) (overrides : Params) (list_param : String) :
    Option ParamValue :=
  match overrides list_param with
  | some v => some v
  | none => fet.defaults list_param

/-- `Fetcher.batched_iter(list_param=..., max_items=..., **overrides)`:
when the designated parameter resolves to a plain sequence strictly longer
than `max_items`, split it into chunks and re-invoke the query function
once per chunk under one scoped session (`_call_with_session` merges
`{**defaults, **overrides, list_param: chunk}`); otherwise fall back to
`iter(**overrides)`. -/
def Fetcher.batched_iter (fet : Fetcher) (list_param : String) (max_items : Nat)
    (overrides : Params) : RunStats :=
  match fet.resolveParam overrides list_param with
  | some (ParamValue.pvSeq l) =>
    if l.length = 0 ∨ l.length ≤ max_items then fet.iterRun overrides
    else
      let cs := chunksOf max_items l
      { sessions := 1, calls := cs.length,
        rows := cs.flatMap (fun c =>
          (fet.func (pmerge fet.defaults (pset overrides list_param (ParamValue.pvSeq c)))).map
            (applyTransform fet.transform)) }
  | _ => fet.iterRun overrides

/-! ## Demographics schema (`schemas/demographics.py`) -/

/-- Declared semantic type of a schema field. -/
inductive FieldKind where
  | kStr
  | kNum
  | kDate
  | kDateTime
  deriving DecidableEq

/-- Whether a (present, non-`None`) value fits the declared kind. -/
def acceptValue : FieldKind → Value → Bool
  | FieldKind.kStr, Value.vStr _ => true
  | FieldKind.kNum, Value.vInt _ => true
  | FieldKind.kDate, Value.vDate _ _ _ => true
  | FieldKind.kDateTime, Value.vDateTime _ _ _ _ _ => true
  | _, _ => false

/-- Generic pydantic-style structural validation: each declared field
(`name`, kind, required?) is checked in declaration order; unknown input
keys are ignored (`extra="ignore"`); the output holds the set fields in
declaration order. A missing or type-mismatching required field, or a
type-mismatching optional one, is a per-row validation error. -/
def structuralFromFields : List (String × FieldKind × Bool) → Row → Except String Row
  | [], _ => Except.ok []
  | (name, kind, required) :: rest, r => do
    let tail ← structuralFromFields rest r
    match alookup name r with
    | none =>
      if required then Except.error (name ++ ": Field required") else Except.ok tail
    | some Value.vNone =>
      if required then Except.error (name ++ ": Input should be a valid string")
      else Except.ok ((name, Value.vNone) :: tail)
    | some v =>
      if acceptValue kind v then Except.ok ((name, v) :: tail)
      else Except.error (name ++ ": Input type mismatch")

/-- The declared fields of `DemographicsOut`, in declaration order. -/
def demographicsFields : List (String × FieldKind × Bool) :=
  [("case_number", FieldKind.kStr, true),
   ("patient_sex", FieldKind.kStr, false),
   ("patient_date_of_birth", FieldKind.kDate, false),
   ("patient_body_weight", FieldKind.kNum, false),
   ("patient_body_height", FieldKind.kNum, false),
   ("case_admission_time", FieldKind.kDateTime, false),
   ("case_discharge_time", FieldKind.kDateTime, false),
   ("patient_age_today", FieldKind.kNum, false),
   ("patient_age_at_admission", FieldKind.kNum, false)]

/-- `helpers/datetime_helpers._age`: completed years between `dob` and
`reference`, with the Python lexicographic tuple comparison
`(reference.month, reference.day) < (dob.month, dob.day)` written out. -/
def _age (dob reference : Nat × Nat × Nat) : Int :=
  (reference.1 : Int) - (dob.1 : Int)
    - (if reference.2.1 < dob.2.1 ∨ (reference.2.1 = dob.2.1 ∧ reference.2.2 < dob.2.2)
       then 1 else 0)

/-- Models `date.today()` as captured once at import time: Python evaluates
the default argument `reference=date.today()` of `_age` when
`helpers/datetime_helpers.py` is first imported. The concrete day is
irrelevant to every claim. -/
def module_load_date : Nat × Nat × Nat := (2025, 6, 1)

/-- Whether the field is `None` on the model (unset or set to `None`). -/
def isNoneField (r : Row) (k : String) : Bool :=
  match alookup k r with
  | none => true
  | some Value.vNone => true
  | some _ => false

/-- `DemographicsOut._compute_ages` (a `mode="after"` validator): with a
truthy date of birth, fill `patient_age_today` when it is `None`, and
`patient_age_at_admission` when an admission time is present and it is
`None`; assignment marks the field as set. Derivation never overwrites an
explicitly supplied value. -/
def demographicsDerive (r : Row) : Row :=
  match alookup "patient_date_of_birth" r with
  | some (Value.vDate dy dm dd) =>
    let r1 :=
      if isNoneField r "patient_age_today" then
        dictSet r "patient_age_today" (Value.vInt (_age (dy, dm, dd) module_load_date))
      else r
    (match alookup "case_admission_time" r1 with
     | some (Value.vDateTime ay am ad _ _) =>
       if isNoneField r1 "patient_age_at_admission" then
         dictSet r1 "patient_age_at_admission" (Value.vInt (_age (dy, dm, dd) (ay, am, ad)))
       else r1
     | _ => r1)
  | _ => r

/-- The `patient_sex` normalization mapping of `DemographicsOut` (the
`"mÃ¤nnlich"` key reproduces the source file byte-for-byte). -/
def sexMap : NormMap :=
  [("m", Value.vStr "M"), ("male", Value.vStr "M"), ("mÃ¤nnlich", Value.vStr "M"),
   ("f", Value.vStr "F"), ("female", Value.vStr "F"), ("w", Value.vStr "F"),
   ("weiblich", Value.vStr "F"),
   ("d", Value.vStr "D"), ("divers", Value.vStr "D"),
   ("u", Value.vStr "U"), ("unknown", Value.vStr "U"),
   ("__default__", Value.vStr "U")]

/-- The schema configuration of `DemographicsOut`. -/
def demographicsSchema : SchemaConfig :=
  { hashable_fields := ["case_number"],
    excluded_by_default := ["patient_date_of_birth"],
    normalization_maps := [("patient_sex", sexMap)],
    structural := structuralFromFields demographicsFields,
    derive := demographicsDerive }

/-! ## Demographics query functions (`methods/fetch_demographics.py`)

The functions live in the repository, so their logic — default field lists
when `fields` is falsy, the unified field map with its unknown-field
`ValueError`, and the shape of the DISTINCT select they hand to the
session — is embedded from the source. Only the persistence engine that
executes the statement is the out-of-scope collaborator (spec §1:
"given a session handle and a set of identifiers, produce rows as
field→value mappings"); it is abstracted as a `Session`, a function from
an assembled statement to rows. -/

/-- The observable content of the statement assembled by
`_execute_select`: the projected field labels in `fields` order
(`select(*(field_map[name] for name in fields)).distinct()`), whether the
`Fall` alias is joined (`join(p, f, p.ID == f.Patient_ID)` in the cases
variant), whether BODY_* metrics are taken nearest to the admission time
(`ref_dt_for_metrics=f.AUFN`) or latest overall, and the identifier
`IN (...)` filter of the where-clause. The SQLAlchemy column expressions
themselves are internals of the out-of-scope storage schema. -/
structure SelectStmt where
  fields : List String
  joinFall : Bool
  nearestToAdmission : Bool
  idFilter : List String
  deriving DecidableEq

/-- A session handle of the out-of-scope persistence engine: executing an
assembled statement produces rows (`session.execute(stmt).mappings()
.fetchall()`). -/
abbrev Session := SelectStmt → List Row

/-- `_build_field_map(p=..., f=..., fields=..., ref_dt_for_metrics=...)`:
the keys of the unified field map — the patient fields, the case fields
only when a `Fall` alias is supplied, and the dynamic BODY_* metrics only
when requested — together with the validation
`raise ValueError(f"Unknown demographic fields requested: {unknown}")`.
The embedding keeps the keys, which is all `_execute_select` projects on;
the column expressions the dict maps to are out-of-scope statement
internals. -/
def _build_field_map (hasFall : Bool) (fields : List String) :
    Except String (List String) :=
  let field_map :=
    ["patient_id", "patient_date_of_birth", "patient_sex"]
      ++ (if hasFall then
            ["case_number", "case_admission_time", "case_discharge_time"]
          else [])
      ++ (if "patient_body_weight" ∈ fields then ["patient_body_weight"] else [])
      ++ (if "patient_body_height" ∈ fields then ["patient_body_height"] else [])
  let unknown := fields.filter (fun name => name ∉ field_map)
  if unknown ≠ [] then
    Except.error ("Unknown demographic fields requested: "
      ++ String.intercalate ", " unknown)
  else Except.ok field_map

/-- `_execute_select(session, selectable, fields, field_map, whereclause)`:
hand the assembled statement to the session. -/
def _execute_select (session : Session) (joinFall nearestToAdmission : Bool)
    (fields : List String) (idFilter : List String) : List Row :=
  session
    { fields := fields, joinFall := joinFall,
      nearestToAdmission := nearestToAdmission, idFilter := idFilter }

/-- The default field list of `fetch_demography_for_cases`
("Defaults match current behavior"). -/
def defaultCaseFields : List String :=
  ["patient_id", "case_number", "patient_date_of_birth", "patient_sex",
   "case_admission_time", "case_discharge_time"]

/-- The default field list of `fetch_demography_for_patients`. -/
def defaultPatientFields : List String :=
  ["patient_id", "patient_date_of_birth", "patient_sex"]

/-- `fetch_demography_for_cases(session, case_numbers, fields=None)`:
`if not fields:` (falsy: `None` or empty) use the default list; build the
field map with a `Fall` alias (raising on unknown fields); select
DISTINCT over Patient joined with Fall, filtered by
`FALLNR IN case_numbers`, metrics nearest to admission. The raised
`ValueError` is the `Except.error` branch. -/
def fetch_demography_for_cases (session : Session) (case_numbers : List String)
    (fields : Option (List String)) : Except String (List Row) :=
  let fields := match fields with
    | none => defaultCaseFields
    | some [] => defaultCaseFields
    | some l => l
  (_build_field_map true fields).map (fun _ =>
    _execute_select session true true fields case_numbers)

/-- `fetch_demography_for_patients(session, patient_ids, fields=None)`:
as the cases variant but with no `Fall` alias, filter
`p.ID IN patient_ids`, and latest-overall metrics. -/
def fetch_demography_for_patients (session : Session) (patient_ids : List String)
    (fields : Option (List String)) : Except String (List Row) :=
  let fields := match fields with
    | none => defaultPatientFields
    | some [] => defaultPatientFields
    | some l => l
  (_build_field_map false fields).map (fun _ =>
    _execute_select session false false fields patient_ids)

/-- A query function as stored in `ResourceSpec.fetchers` and invoked by
the fetch layer as `fn(session=db, **params)`: a Python callable consuming
a session and keyword parameters; a raised exception is the `Except.error`
branch. -/
abbrev RegistryQueryFunc := Session → Params → Except String (List Row)

/-- `fetch_demography_for_cases` under Python keyword application: bind
`case_numbers` and `fields` from the parameter dict (`fields` absent or
`None` is the default `None`; other value kinds do not occur in the
pipeline). -/
def fetch_demography_for_cases_kw : RegistryQueryFunc := fun session params =>
  fetch_demography_for_cases session
    (match params "case_numbers" with
     | some (ParamValue.pvSeq l) => l
     | _ => [])
    (match params "fields" with
     | some (ParamValue.pvSeq l) => some l
     | _ => none)

/-- `fetch_demography_for_patients` under Python keyword application. -/
def fetch_demography_for_patients_kw : RegistryQueryFunc := fun session params =>
  fetch_demography_for_patients session
    (match params "patient_ids" with
     | some (ParamValue.pvSeq l) => l
     | _ => [])
    (match params "fields" with
     | some (ParamValue.pvSeq l) => some l
     | _ => none)

/-- A concrete session over an empty store: the external engine returns no
rows for any statement. Used as the concrete store of witnesses and
counterexamples (none of which consults the store). -/
def emptyStoreSession : Session := fun _ => []

/-! ## Resource registry and field planner (`pipeline/extraction_pipeline.py`,
`pipeline/_pipeline_helpers.py: ResourceSpec`) -/

/-- `ResourceSpec` (a `NamedTuple` in the source): schema, derived-field
dependency map, case-only field set, and the per-grouping-mode query
functions. The Python `set[str]` of dependencies is a duplicate-free list
in some iteration order. -/
structure ResourceSpec where
  schema_cls : SchemaConfig
  derived_deps : List (String × List String)
  requires_cases : List String
  fetchers : List (String × RegistryQueryFunc)

/-- `pipeline/pipes/extract_demography.py: DEMOGRAPHICS_SPEC`. -/
def DEMOGRAPHICS_SPEC : ResourceSpec :=
  { schema_cls := demographicsSchema,
    derived_deps :=
      [("patient_age_today", ["patient_date_of_birth"]),
       ("patient_age_at_admission", ["patient_date_of_birth", "case_admission_time"])],
    requires_cases :=
      ["case_number", "case_admission_time", "case_discharge_time",
       "patient_age_at_admission"],
    fetchers :=
      [("cases", fetch_demography_for_cases_kw),
       ("patients", fetch_demography_for_patients_kw)] }

/-- `REGISTRY` of `pipeline/extraction_pipeline.py`. -/
def REGISTRY : List (String × ResourceSpec) := [("demographics", DEMOGRAPHICS_SPEC)]

/-- The planner raises one kind of `ValueError`:
"Requested fields require by='cases' for this resource." -/
inductive PlanError where
  | groupingModeFieldMismatch
  deriving DecidableEq

/-- Append the elements of `deps` that are not yet present, in order
(the inner loop `for dep in ...: if dep not in fetch_fields: append`). -/
def addAbsent (acc : List String) (deps : List String) : List String :=
  deps.foldl (fun a d => if d ∈ a then a else a ++ [d]) acc

/-- `_plan_fetch_and_include_for(spec, by, requested)`. -/
def _plan_fetch_and_include_for (spec : ResourceSpec) (by_ : String)
    (requested : Option (List String)) :
    Except PlanError (Option (List String) × Option (List String)) :=
  match requested with
  | none => Except.ok (none, none)
  | some reqList =>
    let requested := dedupFirst reqList
    if by_ ≠ "cases" ∧ ∃ f ∈ requested, f ∈ spec.requires_cases then
      Except.error PlanError.groupingModeFieldMismatch
    else
      let fetch0 := requested.filter (fun f => (alookup f spec.derived_deps).isNone)
      let fetch_fields := requested.foldl
        (fun acc name => addAbsent acc ((alookup name spec.derived_deps).getD [])) fetch0
      Except.ok (some fetch_fields, some requested)

/-! ## Row validation (`pipeline/_pipeline_helpers.py: _validate_with_model`)

`model_cls.model_validate(row)` followed by the dump may raise; the
`except Exception` arm is modelled by the validation function returning
`Except String Row`. The function below is therefore total: no single bad
row can abort the batch. -/

/-- The collected error description `f"row {i}: {exc}"`. -/
def errLine (i : Nat) (msg : String) : String := "row " ++ toString i ++ ": " ++ msg

/-- The `for i, row in enumerate(rows)` loop with its two growing
accumulators `cleaned` and `errors`. -/
def validateGo (v : Row → Except String Row) :
    Nat → List Row → List Row × List String → List Row × List String
  | _, [], acc => acc
  | i, r :: rs, (cl, er) =>
    match v r with
    | Except.ok d => validateGo v (i + 1) rs (cl ++ [d], er)
    | Except.error e => validateGo v (i + 1) rs (cl, er ++ [errLine i e])

/-- `_validate_with_model(rows, model_cls, ...)`, returning both the
cleaned records (the function's return value) and the collected error
descriptions (logged, not returned, in the source). -/
def _validate_with_model (rows : List Row) (v : Row → Except String Row) :
    List Row × List String :=
  validateGo v 0 rows ([], [])

/-- The warning lines actually emitted for a batch: the first 10 error
descriptions, plus one summary line counting the remainder. -/
def loggedWarnings (errors : List String) : List String :=
  errors.take 10
    ++ (if 10 < errors.length
        then ["... plus " ++ toString (errors.length - 10) ++ " more validation issues"]
        else [])

/-- Reference form of the surviving records: one per valid row, in order. -/
def okRecords (v : Row → Except String Row) (rows : List Row) : List Row :=
  rows.filterMap (fun r => (v r).toOption)

/-- Reference form of the error descriptions: one per failing row, carrying
that row's index (counted from `i`). -/
def errLinesFrom (v : Row → Except String Row) : Nat → List Row → List String
  | _, [] => []
  | i, r :: rs =>
    match v r with
    | Except.ok _ => errLinesFrom v (i + 1) rs
    | Except.error e => errLine i e :: errLinesFrom v (i + 1) rs

/-! ## Tabular result (`pandas.DataFrame` as consumed by the pipeline) -/

/-- The observable part of a `pandas.DataFrame` built from a list of dicts:
its column list and its records (a missing key in a record is a `NaN`
cell). -/
structure DataFrame where
  cols : List String
  recs : List Row
  deriving DecidableEq

/-- `pd.DataFrame(cleaned)`: the columns are the record keys in order of
first appearance across the records. -/
def pdDataFrame (cleaned : List Row) : DataFrame :=
  { cols := dedupFirst (cleaned.flatMap (fun r => r.map Prod.fst)), recs := cleaned }

/-- `_enforce_order(df, requested)` (`pipeline/_pipeline_helpers.py`):
keep the requested columns that exist, in requested order; when none of
them exists, return an empty frame that still carries every requested
column. -/
def _enforce_order (df : DataFrame) (requested : Option (List String)) : DataFrame :=
  match requested with
  | none => df
  | some req =>
    let cols := req.filter (fun c => decide (c ∈ df.cols))
    if cols ≠ [] then { cols := cols, recs := df.recs } else { cols := req, recs := [] }

/-! ## Audit sink (`pipeline/audit_logger.py`) -/

/-- Constructor state of `AuditLogger` relevant to identifier
summarization: `include_id_samples`, `id_sample_size` (default 3) and the
constructor argument `id_hash_salt`. The source stores
`self.id_hash_salt = id_hash_salt or ""` and
`self.hash_ids = id_hash_salt is not None`. -/
structure AuditLogger where
  include_id_samples : Bool
  id_sample_size : Nat
  id_hash_salt : Option String

/-- `self.id_hash_salt` as stored (`id_hash_salt or ""`). -/
def AuditLogger.storedSalt (a : AuditLogger) : String := a.id_hash_salt.getD ""

/-- `self.hash_ids` (`id_hash_salt is not None`). -/
def AuditLogger.hash_ids (a : AuditLogger) : Bool := a.id_hash_salt.isSome

/-- The sampled identifier values of a summary, tagged with the JSON key
they are written under. -/
inductive IdSample where
  | hashed (l : List String)
  | raw (l : List String)
  deriving DecidableEq

/-- The `ids` component of an audit record:
`{"count": ..., "hashed_ids"|"ids": [...]}`. -/
structure IdSummary where
  count : Nat
  sample : Option IdSample
  deriving DecidableEq

/-- `AuditLogger._summarize_ids(ids)`. -/
def AuditLogger.summarize_ids (a : AuditLogger) (ids : List String) : IdSummary :=
  { count := ids.length,
    sample :=
      if a.include_id_samples ∧ ids ≠ [] then
        some
          (if a.hash_ids then
            IdSample.hashed ((ids.take a.id_sample_size).map
              (fun x => hash_value x (some a.storedSalt)))
          else IdSample.raw (ids.take a.id_sample_size))
      else none }

/-- The identifier values a summary actually writes to the log line. -/
def writtenIdValues (s : IdSummary) : List String :=
  match s.sample with
  | none => []
  | some (IdSample.hashed l) => l
  | some (IdSample.raw l) => l

/-! ## Orchestrator (`pipeline/extraction_pipeline.py: run_resource`)

Persistence (`_write_df`) and the wall-clock/audit-stream side effects are
out-of-scope collaborators (spec §1); the embedding returns the shaped
table together with the number of query-function invocations, so that
"aborts before the external query function is ever executed" is a
value-level fact. -/

inductive PipelineError where
  | unknownResource
  | invalidGroupingMode
  | groupingModeFieldMismatch
  | unsupportedGroupingFetcher
  | upstreamQueryFailure (msg : String)
  deriving DecidableEq

/-- The `fields` keyword argument passed on to the query function. -/
def fieldsParam : Option (List String) → ParamValue
  | none => ParamValue.pvNone
  | some l => ParamValue.pvSeq l

/-- The keyword parameters handed to the fetcher:
`{"case_numbers": ids, "fields": fetch_fields}` under grouping "cases",
`{"patient_ids": ids, "fields": fetch_fields}` under "patients". -/
def runParams (by_ : String) (ids : List String) (fetch_fields : Option (List String)) :
    Params :=
  if by_ = "cases" then
    pset (pset pEmpty "case_numbers" (ParamValue.pvSeq ids)) "fields"
      (fieldsParam fetch_fields)
  else
    pset (pset pEmpty "patient_ids" (ParamValue.pvSeq ids)) "fields"
      (fieldsParam fetch_fields)

/-- `run_resource(resource, by=..., ids=..., fields=..., hash_salt=...)`
over the external store `db`: registry lookup, grouping-mode check,
planning, fetcher choice, fetch, validate/dump, shape. The source's
`make_fetcher(fetch_func); rows = list(fetcher.iter(**params))` opens one
scoped session over the store and invokes the query function exactly once;
the embedding passes `db` and counts that invocation, so the second
component is the number of times the external query function was invoked.
An exception raised inside the query function (such as the unknown-field
`ValueError` of `_build_field_map`) propagates verbatim and is fatal to
the call (`upstreamQueryFailure`). -/
def run_resource (db : Session) (registry : List (String × ResourceSpec))
    (resource : String) (by_ : String) (ids : List String)
    (fields : Option (List String)) (hash_salt : Option String) :
    Except PipelineError DataFrame × Nat :=
  match alookup resource registry with
  | none => (Except.error PipelineError.unknownResource, 0)
  | some spec =>
    if by_ = "cases" ∨ by_ = "patients" then
      match _plan_fetch_and_include_for spec by_ fields with
      | Except.error PlanError.groupingModeFieldMismatch =>
        (Except.error PipelineError.groupingModeFieldMismatch, 0)
      | Except.ok (fetch_fields, include_fields) =>
        match alookup by_ spec.fetchers with
        | none => (Except.error PipelineError.unsupportedGroupingFetcher, 0)
        | some fetch_func =>
          match fetch_func db (runParams by_ ids fetch_fields) with
          | Except.error e => (Except.error (PipelineError.upstreamQueryFailure e), 1)
          | Except.ok rows =>
            let vfun := fun r =>
              (model_validate spec.schema_cls r).map (fun obj =>
                if saltFalsy hash_salt then
                  dump_clean spec.schema_cls obj include_fields none
                else
                  dump_hashed spec.schema_cls obj (hash_salt.getD "") include_fields
                    none)
            let cleaned := (_validate_with_model rows vfun).1
            let df := _enforce_order (pdDataFrame cleaned) include_fields
            (Except.ok df, 1)
    else (Except.error PipelineError.invalidGroupingMode, 0)

/-- The planner's dependency-appending fold. -/
def planFold (spec : ResourceSpec) (names acc : List String) : List String :=
  names.foldl (fun acc name => addAbsent acc ((alookup name spec.derived_deps).getD [])) acc

/-- A concrete validation function used as a witness instance: rejects the
empty row with message "boom", accepts any other row unchanged. -/
def vBoom : Row → Except String Row :=
  fun r => if r = [] then Except.error "boom" else Except.ok r

/-- The spec's description of the planner's `fetch_fields` (spec §4.1):
"requested fields minus any that are purely derived (i.e., keys of
`derived_deps`), then append — in the order the dependent field was
requested — every dependency field not already present". Stated over the
already-deduplicated request. -/
def fetchFieldsDescribed (spec : ResourceSpec) (requested : List String) : List String :=
  planFold spec requested
    (requested.filter (fun f => (alookup f spec.derived_deps).isNone))

/-! ## Lemmas and theorems -/

@[simp] theorem alookup_nil {β : Type} (k : String) : alookup (β := β) k [] = none := rfl

theorem alookup_cons {β : Type} (k : String) (kv : String × β) (rest : List (String × β)) :
    alookup k (kv :: rest) = if kv.1 = k then some kv.2 else alookup k rest := rfl

theorem alookup_map_replace (r : Row) (k k' : String) (v : Value) (hne : k' ≠ k) :
    alookup k' (r.map (fun kv => if kv.1 = k then (k, v) else kv)) = alookup k' r := by
  induction r with
  | nil => simp
  | cons kv rest ih =>
    by_cases h : kv.1 = k
    · simp [alookup_cons, h, hne.symm, Ne.symm hne, ih]
    · simp [alookup_cons, h, ih]

theorem alookup_append_single (r : Row) (k k' : String) (v : Value) (hne : k' ≠ k) :
    alookup k' (r ++ [(k, v)]) = alookup k' r := by
  induction r with
  | nil => simp [alookup_cons, Ne.symm hne]
  | cons kv rest ih => by_cases hkv : kv.1 = k' <;> simp [alookup_cons, hkv, ih]

theorem alookup_dictSet_ne (r : Row) (k k' : String) (v : Value) (hne : k' ≠ k) :
    alookup k' (dictSet r k v) = alookup k' r := by
  unfold dictSet
  by_cases h : (alookup k r).isSome
  · simp [h, alookup_map_replace r k k' v hne]
  · simp [h, alookup_append_single r k k' v hne]

theorem alookup_dictSet_self (r : Row) (k : String) (v : Value)
    (h : (alookup k r).isSome) : alookup k (dictSet r k v) = some v := by
  unfold dictSet
  simp only [h, if_true]
  induction r with
  | nil => simp at h
  | cons kv rest ih =>
    by_cases hkv : kv.1 = k
    · simp [alookup_cons, hkv]
    · simp only [alookup_cons, hkv, if_false] at h
      simp [alookup_cons, hkv, ih h]

theorem mem_dedupFirstGo (a : String) :
    ∀ (l seen : List String), a ∈ dedupFirstGo l seen ↔ a ∈ l ∧ a ∉ seen
  | [], seen => by simp [dedupFirstGo]
  | x :: xs, seen => by
    by_cases hx : x ∈ seen
    · simp only [dedupFirstGo, hx, if_true, mem_dedupFirstGo a xs seen, List.mem_cons]
      constructor
      · rintro ⟨h1, h2⟩; exact ⟨Or.inr h1, h2⟩
      · rintro ⟨h1 | h1, h2⟩
        · exact absurd (h1 ▸ hx) h2
        · exact ⟨h1, h2⟩
    · simp only [dedupFirstGo, hx, if_false, List.mem_cons, mem_dedupFirstGo a xs (x :: seen)]
      by_cases hax : a = x
      · simp [hax, hx]
      · simp [hax]

theorem mem_dedupFirst (a : String) (l : List String) : a ∈ dedupFirst l ↔ a ∈ l := by
  simp [dedupFirst, mem_dedupFirstGo]

theorem dedupFirstGo_sublist : ∀ (l seen : List String), (dedupFirstGo l seen).Sublist l
  | [], _ => by simp [dedupFirstGo]
  | x :: xs, seen => by
    by_cases hx : x ∈ seen
    · simp only [dedupFirstGo, hx, if_true]
      exact (dedupFirstGo_sublist xs seen).cons x
    · simp only [dedupFirstGo, hx, if_false]
      exact (dedupFirstGo_sublist xs (x :: seen)).cons₂ x

theorem dedupFirst_sublist (l : List String) : (dedupFirst l).Sublist l :=
  dedupFirstGo_sublist l []

theorem dedupFirstGo_nodup : ∀ (l seen : List String), (dedupFirstGo l seen).Nodup
  | [], _ => by simp [dedupFirstGo]
  | x :: xs, seen => by
    by_cases hx : x ∈ seen
    · simp only [dedupFirstGo, hx, if_true]
      exact dedupFirstGo_nodup xs seen
    · simp only [dedupFirstGo, hx, if_false]
      refine List.nodup_cons.2 ⟨?_, dedupFirstGo_nodup xs (x :: seen)⟩
      intro hmem
      exact ((mem_dedupFirstGo x xs (x :: seen)).1 hmem).2 (List.mem_cons_self x seen)

theorem dedupFirst_nodup (l : List String) : (dedupFirst l).Nodup :=
  dedupFirstGo_nodup l []

@[simp] theorem chunksOf_nil {α : Type} (k : Nat) : chunksOf (α := α) k [] = [] := by
  rw [chunksOf]

theorem chunksOf_cons {α : Type} (k : Nat) (x : α) (xs : List α) :
    chunksOf k (x :: xs)
      = if k = 0 then [] else (x :: xs).take k :: chunksOf k (xs.drop (k - 1)) := by
  rw [chunksOf]

theorem chunksOf_flatten {α : Type} (k : Nat) (hk : 0 < k) :
    ∀ l : List α, (chunksOf k l).flatten = l
  | [] => by simp
  | x :: xs => by
    rw [chunksOf_cons, if_neg (Nat.pos_iff_ne_zero.1 hk)]
    have hdrop : xs.drop (k - 1) = (x :: xs).drop k := by
      cases k with
      | zero => exact absurd hk (by simp)
      | succ n => simp
    rw [List.flatten_cons, chunksOf_flatten k hk (xs.drop (k - 1)), hdrop,
      List.take_append_drop]
termination_by l => l.length
decreasing_by
  simp only [List.length_cons, List.length_drop]
  omega

theorem chunksOf_length_le {α : Type} (k : Nat) :
    ∀ (l : List α), ∀ c ∈ chunksOf k l, c.length ≤ k ∧ c ≠ []
  | [], c => by simp
  | x :: xs, c => by
    rw [chunksOf_cons]
    by_cases hk : k = 0
    · simp [hk]
    · simp only [hk, if_false, List.mem_cons]
      rintro (rfl | hmem)
      · refine ⟨by simp, ?_⟩
        cases k with
        | zero => exact absurd rfl hk
        | succ n => simp [List.take_succ_cons]
      · exact chunksOf_length_le k (xs.drop (k - 1)) c hmem
termination_by l => l.length
decreasing_by
  simp only [List.length_cons, List.length_drop]
  omega

@[simp] theorem length_hexWord (n : Nat) : (hexWord n).length = 8 := by
  simp [hexWord]

theorem sha256hex_length (s : String) : (sha256hex s).length = 64 := by
  rw [sha256hex, String.length_mk]
  simp [sha256hexChars]

theorem pySlice_length (s : String) (n : Nat) :
    (pySlice s n).length = min n s.length := by
  rw [pySlice, String.length_mk, String.toList, List.length_take]
  rfl

theorem apply_hashing_none (hashable : List String) (data : Row) :
    apply_hashing hashable none data = data := by
  simp [apply_hashing, saltFalsy]

theorem alookup_hashStep_ne (s : String) (d : Row) (f k : String) (hne : k ≠ f) :
    alookup k (hashStep s d f) = alookup k d := by
  unfold hashStep
  cases h : alookup f d with
  | none => rfl
  | some v =>
    cases v with
    | vStr w => exact alookup_dictSet_ne d f k _ hne
    | vNone => rfl
    | vInt n => rfl
    | vDate y m dd => rfl
    | vDateTime y m dd hh mi => rfl

theorem alookup_foldl_hashStep_not_mem (s : String) (fields : List String) (k : String)
    (hk : k ∉ fields) : ∀ d : Row, alookup k (fields.foldl (hashStep s) d) = alookup k d := by
  induction fields with
  | nil => intro d; rfl
  | cons g rest ih =>
    intro d
    simp only [List.mem_cons, not_or] at hk
    simp only [List.foldl_cons]
    rw [ih hk.2 (hashStep s d g), alookup_hashStep_ne s d g k hk.1]

theorem alookup_foldl_hashStep (s : String) (fields : List String) (k : String)
    (hnd : fields.Nodup) (hk : k ∈ fields) :
    ∀ d : Row, alookup k (fields.foldl (hashStep s) d)
      = match alookup k d with
        | some (Value.vStr v) => some (Value.vStr (hash_value v (some s)))
        | other => other := by
  induction fields with
  | nil => simp at hk
  | cons g rest ih =>
    intro d
    have hnd' := List.nodup_cons.1 hnd
    by_cases hkg : k = g
    · subst hkg
      simp only [List.foldl_cons]
      rw [alookup_foldl_hashStep_not_mem s rest k hnd'.1 (hashStep s d k)]
      unfold hashStep
      cases h : alookup k d with
      | none => simp [h]
      | some v =>
        cases v with
        | vStr w => simp [alookup_dictSet_self d k _ (by simp [h])]
        | vNone => simp [h]
        | vInt n => simp [h]
        | vDate y m dd => simp [h]
        | vDateTime y m dd hh mi => simp [h]
    · have hkrest : k ∈ rest := by
        rcases List.mem_cons.1 hk with h | h
        · exact absurd h hkg
        · exact h
      simp only [List.foldl_cons]
      rw [ih hnd'.2 hkrest (hashStep s d g), alookup_hashStep_ne s d g k hkg]

/-- Field-wise description of the hashing hook for a truthy salt. -/
theorem alookup_apply_hashing (hashable : List String) (s : String) (hs : s ≠ "")
    (hnd : hashable.Nodup) (data : Row) (k : String) :
    alookup k (apply_hashing hashable (some s) data)
      = if k ∈ hashable then
          match alookup k data with
          | some (Value.vStr v) => some (Value.vStr (hash_value v (some s)))
          | other => other
        else alookup k data := by
  unfold apply_hashing
  have hsf : saltFalsy (some s) = false := by simp [saltFalsy, hs]
  rw [hsf]
  cases hashable with
  | nil => simp
  | cons g rest =>
    simp only [Bool.false_or, List.isEmpty_cons, if_neg Bool.false_ne_true]
    by_cases hk : k ∈ g :: rest
    · rw [if_pos hk, alookup_foldl_hashStep s (g :: rest) k hnd hk data]
    · rw [if_neg hk, alookup_foldl_hashStep_not_mem s (g :: rest) k hk data]

theorem pmerge_pset_right (a b : Params) (k : String) (v : ParamValue) :
    pmerge a (pset b k v) = pset (pmerge a b) k v := by
  funext k'
  by_cases h : k' = k <;> simp [pmerge, pset, h]

theorem pset_self_of_lookup (ps : Params) (k : String) (v : ParamValue)
    (h : ps k = some v) : pset ps k v = ps := by
  funext k'
  by_cases hk : k' = k
  · simp [pset, hk, h.symm]
  · simp [pset, hk]

theorem validateGo_eq (v : Row → Except String Row) :
    ∀ (rows : List Row) (i : Nat) (cl : List Row) (er : List String),
      validateGo v i rows (cl, er) = (cl ++ okRecords v rows, er ++ errLinesFrom v i rows)
  | [], i, cl, er => by simp [validateGo, okRecords, errLinesFrom]
  | r :: rs, i, cl, er => by
    cases hv : v r with
    | ok d =>
      simp only [validateGo, hv, validateGo_eq v rs (i + 1) (cl ++ [d]) er, okRecords,
        List.filterMap_cons, errLinesFrom, Except.toOption, List.append_assoc,
        List.singleton_append]
    | error e =>
      simp only [validateGo, hv, validateGo_eq v rs (i + 1) cl (er ++ [errLine i e]),
        okRecords, List.filterMap_cons, errLinesFrom, Except.toOption, List.append_assoc,
        List.singleton_append]

theorem validate_with_model_eq (rows : List Row) (v : Row → Except String Row) :
    _validate_with_model rows v = (okRecords v rows, errLinesFrom v 0 rows) := by
  simp [_validate_with_model, validateGo_eq v rows 0 [] []]

/-! ## Helper lemmas for the planner and the batched fetch layer -/

theorem mem_addAbsent_left (a : String) (deps : List String) :
    ∀ acc : List String, a ∈ acc → a ∈ addAbsent acc deps := by
  induction deps with
  | nil => intro acc h; exact h
  | cons d rest ih =>
    intro acc h
    show a ∈ addAbsent (if d ∈ acc then acc else acc ++ [d]) rest
    by_cases hd : d ∈ acc
    · rw [if_pos hd]; exact ih acc h
    · rw [if_neg hd]; exact ih (acc ++ [d]) (List.mem_append_left _ h)

theorem mem_addAbsent_right (d : String) (deps : List String) (hd : d ∈ deps) :
    ∀ acc : List String, d ∈ addAbsent acc deps := by
  induction deps with
  | nil => simp at hd
  | cons g rest ih =>
    intro acc
    show d ∈ addAbsent (if g ∈ acc then acc else acc ++ [g]) rest
    rcases List.mem_cons.1 hd with rfl | hmem
    · by_cases hg : d ∈ acc
      · rw [if_pos hg]; exact mem_addAbsent_left d rest acc hg
      · rw [if_neg hg]
        exact mem_addAbsent_left d rest (acc ++ [d]) (List.mem_append_right _ (by simp))
    · by_cases hg : g ∈ acc <;> simp only [hg, if_true, if_false] <;> exact ih hmem _

theorem mem_planFold_left (spec : ResourceSpec) (names : List String) :
    ∀ (acc : List String) (a : String), a ∈ acc → a ∈ planFold spec names acc := by
  induction names with
  | nil => intro acc a h; exact h
  | cons n rest ih =>
    intro acc a h
    exact ih _ a (mem_addAbsent_left a _ acc h)

theorem mem_planFold_dep (spec : ResourceSpec) (names : List String) (name dep : String)
    (hname : name ∈ names) (hdep : dep ∈ (alookup name spec.derived_deps).getD []) :
    ∀ acc : List String, dep ∈ planFold spec names acc := by
  induction names with
  | nil => simp at hname
  | cons n rest ih =>
    intro acc
    rcases List.mem_cons.1 hname with rfl | hmem
    · exact mem_planFold_left spec rest _ dep (mem_addAbsent_right dep _ hdep acc)
    · exact ih hmem _

theorem pmerge_lookup (a b : Params) (k : String) :
    pmerge a b k = match b k with | some v => some v | none => a k := rfl

theorem func_flatten (f : QueryFunc) (p : String)
    (hom : ∀ (ps : Params) (a b : List String),
      f (pset ps p (ParamValue.pvSeq (a ++ b)))
        = f (pset ps p (ParamValue.pvSeq a)) ++ f (pset ps p (ParamValue.pvSeq b)))
    (ps : Params) :
    ∀ cs : List (List String), cs ≠ [] →
      f (pset ps p (ParamValue.pvSeq cs.flatten))
        = cs.flatMap (fun c => f (pset ps p (ParamValue.pvSeq c)))
  | [], h => absurd rfl h
  | [c], _ => by simp
  | c :: c' :: rest, _ => by
    rw [List.flatten_cons, hom ps c (c' :: rest).flatten,
      func_flatten f p hom ps (c' :: rest) (by simp)]
    simp

theorem okRecords_errLinesFrom_length (v : Row → Except String Row) :
    ∀ (rows : List Row) (i : Nat),
      (okRecords v rows).length + (errLinesFrom v i rows).length = rows.length
  | [], i => by simp [okRecords, errLinesFrom]
  | r :: rs, i => by
    have ih := okRecords_errLinesFrom_length v rs (i + 1)
    cases hv : v r with
    | ok d =>
      have h1 : okRecords v (r :: rs) = d :: okRecords v rs := by
        simp [okRecords, List.filterMap_cons, hv, Except.toOption]
      have h2 : errLinesFrom v i (r :: rs) = errLinesFrom v (i + 1) rs := by
        simp [errLinesFrom, hv]
      rw [h1, h2, List.length_cons, List.length_cons]
      omega
    | error e =>
      have h1 : okRecords v (r :: rs) = okRecords v rs := by
        simp [okRecords, List.filterMap_cons, hv, Except.toOption]
      have h2 : errLinesFrom v i (r :: rs) = errLine i e :: errLinesFrom v (i + 1) rs := by
        simp [errLinesFrom, hv]
      rw [h1, h2, List.length_cons, List.length_cons]
      omega

theorem errLinesFrom_mem (v : Row → Except String Row) :
    ∀ (rows : List Row) (k j : Nat) (hj : j < rows.length) (e : String),
      v (rows.get ⟨j, hj⟩) = Except.error e → errLine (k + j) e ∈ errLinesFrom v k rows
  | [], k, j, hj, e, _ => absurd hj (by simp)
  | r :: rs, k, 0, hj, e, hv => by
    simp only [List.get] at hv
    simp only [errLinesFrom, hv, Nat.add_zero]
    exact List.mem_cons_self _ _
  | r :: rs, k, j + 1, hj, e, hv => by
    simp only [List.get] at hv
    have hj' : j < rs.length := by
      simp only [List.length_cons] at hj
      omega
    have := errLinesFrom_mem v rs (k + 1) j hj' e hv
    have harith : k + 1 + j = k + (j + 1) := by omega
    rw [harith] at this
    cases hvr : v r with
    | ok d => simpa [errLinesFrom, hvr] using this
    | error e' =>
      simp only [errLinesFrom, hvr]
      exact List.mem_cons_of_mem _ this

/-! ## Claim theorems -/

/-- C3: for every value and every non-empty salt, `hash_value` returns the
fixed-length-12 prefix of the SHA-256 hex digest of `salt ++ value` —
hence it is deterministic and a function of the concatenation only; with
`None` or an empty salt the value is returned unchanged; and a dump
without a salt (`dump_clean`) emits every field exactly as serialized,
hashable fields included. -/
theorem C3_hash_fixed_length_salted (v s : String) (hs : s ≠ "") (cfg : SchemaConfig)
    (obj : Row) (inc exc : Option (List String)) :
    (hash_value v (some s)).length = 12
    ∧ hash_value v (some s) = pySlice (sha256hex (s ++ v)) 12
    ∧ (∀ v2 s2 : String, s2 ≠ "" → s ++ v = s2 ++ v2 →
        hash_value v (some s) = hash_value v2 (some s2))
    ∧ hash_value v none = v
    ∧ hash_value v (some "") = v
    ∧ dump_clean cfg obj inc exc = base_model_dump cfg inc exc obj := by
  have hval : hash_value v (some s) = pySlice (sha256hex (s ++ v)) 12 := by
    simp [hash_value, hs]
  refine ⟨?_, hval, ?_, rfl, by simp [hash_value], apply_hashing_none _ _⟩
  · rw [hval, pySlice_length, sha256hex_length]
    decide
  · intro v2 s2 hs2 hcat
    rw [hval, hcat]
    simp [hash_value, hs2]

/-- Witness for C3 at value `"007"` and salt `"secret"` (spec scenario 4). -/
theorem C3_witness :
    (hash_value "007" (some "secret")).length = 12
    ∧ hash_value "007" none = "007"
    ∧ hash_value "007" (some "") = "007" := by
  have h := C3_hash_fixed_length_salted "007" "secret" (by decide) demographicsSchema []
    none none
  exact ⟨h.1, h.2.2.2.1, h.2.2.2.2.1⟩

/-- C4 counterexample: for an *empty* (but not `None`) requested field list
the planner returns `(some [], some [])`, not `(fetch_fields=None,
include_fields=None)` — the source defers to fetcher defaults only when
`requested is None`. -/
theorem C4_counterexample :
    _plan_fetch_and_include_for DEMOGRAPHICS_SPEC "cases" (some [])
      = Except.ok (some [], some [])
    ∧ (Except.ok (some [], some [])
        : Except PlanError (Option (List String) × Option (List String)))
      ≠ Except.ok (none, none) := by
  refine ⟨?_, by simp⟩
  rfl

/-- C4 amended: only a `None` field list makes the planner defer entirely
to the fetcher's default columns (`fetch_fields=None, include_fields=None`);
an empty field list instead produces empty (non-`None`) fetch and include
lists. -/
theorem C4_plan_none_defers (spec : ResourceSpec) (by_ : String) :
    _plan_fetch_and_include_for spec by_ none = Except.ok (none, none)
    ∧ _plan_fetch_and_include_for spec by_ (some []) = Except.ok (some [], some []) := by
  constructor
  · rfl
  · simp [_plan_fetch_and_include_for, dedupFirst, dedupFirstGo]

/-- C10: when a truthy salt is supplied at dump time, hashing replaces
exactly the hashable fields whose serialized value is a string; a hashable
field whose present value is a number is emitted unchanged (raw), and
fields not in `hashable_fields` are never touched. -/
theorem C10_hash_only_present_strings (cfg : SchemaConfig) (obj : Row) (salt : String)
    (hsalt : salt ≠ "") (hnd : cfg.hashable_fields.Nodup)
    (inc exc : Option (List String)) (k : String) :
    (k ∈ cfg.hashable_fields →
      (∀ v, alookup k (base_model_dump cfg inc exc obj) = some (Value.vStr v) →
        alookup k (dump_hashed cfg obj salt inc exc)
          = some (Value.vStr (hash_value v (some salt))))
      ∧ (∀ n, alookup k (base_model_dump cfg inc exc obj) = some (Value.vInt n) →
        alookup k (dump_hashed cfg obj salt inc exc) = some (Value.vInt n)))
    ∧ (k ∉ cfg.hashable_fields →
      alookup k (dump_hashed cfg obj salt inc exc)
        = alookup k (base_model_dump cfg inc exc obj)) := by
  have hmain := alookup_apply_hashing cfg.hashable_fields salt hsalt hnd
    (base_model_dump cfg inc exc obj) k
  constructor
  · intro hk
    rw [if_pos hk] at hmain
    constructor
    · intro v hv
      rw [hv] at hmain
      exact hmain
    · intro n hv
      rw [hv] at hmain
      exact hmain
  · intro hk
    rw [if_neg hk] at hmain
    exact hmain

/-- Witness for C10: under salt `"secret"`, a string-valued `case_number`
`"007"` is hashed while an integer-valued `case_number` is emitted raw. -/
theorem C10_witness :
    alookup "case_number"
        (dump_hashed demographicsSchema [("case_number", Value.vStr "007")] "secret"
          none none)
      = some (Value.vStr (hash_value "007" (some "secret")))
    ∧ alookup "case_number"
        (dump_hashed demographicsSchema [("case_number", Value.vInt 7)] "secret"
          none none)
      = some (Value.vInt 7) := by
  refine ⟨((C10_hash_only_present_strings demographicsSchema
      [("case_number", Value.vStr "007")] "secret" (by decide) (by decide) none none
      "case_number").1 (by decide)).1 "007" (by decide),
    ((C10_hash_only_present_strings demographicsSchema
      [("case_number", Value.vInt 7)] "secret" (by decide) (by decide) none none
      "case_number").1 (by decide)).2 7 (by decide)⟩

/-- C6: a field with a configured mapping is normalized by trimming and
case-folding and looking the value up case-insensitively (on duplicate
folded keys the last mapping entry wins, as in the dict comprehension);
`None` and blank-string input always normalize to an absent value; an
unmatched value falls back to the mapping's `"__default__"` entry, or
passes through unchanged if none is configured; fields without a mapping
are untouched; and the normalization validator runs before structural
validation. -/
theorem C6_normalization (maps : List (String × NormMap)) (field : String) (value : Value)
    (cfg : SchemaConfig) (r : Row) :
    (alookup field maps = none → normalize_value maps field value = value)
    ∧ ((alookup field maps).isSome → normalize_value maps field Value.vNone = Value.vNone)
    ∧ (∀ s : String, pyStrip s = "" → (alookup field maps).isSome →
        normalize_value maps field (Value.vStr s) = Value.vNone)
    ∧ (∀ mapping w, alookup field maps = some mapping → value ≠ Value.vNone →
        isBlankStr value = false →
        lookupLast ((mapping.filter (fun kv => kv.1 ≠ "__default__")).map
            (fun kv => (pyCasefold (pyStrip kv.1), kv.2)))
          (pyCasefold (pyStrip (pyStr value))) = some w →
        normalize_value maps field value = w)
    ∧ (∀ mapping, alookup field maps = some mapping → value ≠ Value.vNone →
        isBlankStr value = false →
        lookupLast ((mapping.filter (fun kv => kv.1 ≠ "__default__")).map
            (fun kv => (pyCasefold (pyStrip kv.1), kv.2)))
          (pyCasefold (pyStrip (pyStr value))) = none →
        normalize_value maps field value = (alookup "__default__" mapping).getD value)
    ∧ model_validate cfg r
        = (cfg.structural (apply_normalization_maps cfg.normalization_maps r)).map
            cfg.derive := by
  refine ⟨?_, ?_, ?_, ?_, ?_, rfl⟩
  · intro h; simp [normalize_value, h]
  · intro h
    rcases Option.isSome_iff_exists.1 h with ⟨mapping, hm⟩
    simp [normalize_value, hm]
  · intro s hblank h
    rcases Option.isSome_iff_exists.1 h with ⟨mapping, hm⟩
    simp [normalize_value, hm, isBlankStr, hblank]
  · intro mapping w hm hnn hblank hfound
    simp only [normalize_value, hm]
    rw [if_neg hnn, if_neg (by simp [hblank]), hfound]
  · intro mapping hm hnn hblank hfound
    simp only [normalize_value, hm]
    rw [if_neg hnn, if_neg (by simp [hblank]), hfound]

/-- Witness for C6 on the demographics `patient_sex` mapping: a padded
upper-case match, an unmatched value falling back to the default `"U"`,
blank and `None` inputs, and an unmapped field passing through. -/
theorem C6_witness :
    normalize_value demographicsSchema.normalization_maps "patient_sex"
        (Value.vStr " MALE ") = Value.vStr "M"
    ∧ normalize_value demographicsSchema.normalization_maps "patient_sex"
        (Value.vStr "xyz") = Value.vStr "U"
    ∧ normalize_value demographicsSchema.normalization_maps "patient_sex"
        (Value.vStr "  ") = Value.vNone
    ∧ normalize_value demographicsSchema.normalization_maps "patient_sex" Value.vNone
        = Value.vNone
    ∧ normalize_value demographicsSchema.normalization_maps "case_number"
        (Value.vStr "F1") = Value.vStr "F1" := by
  refine ⟨?_, ?_, ?_, ?_, ?_⟩
  · exact (C6_normalization demographicsSchema.normalization_maps "patient_sex"
      (Value.vStr " MALE ") demographicsSchema []).2.2.2.1 sexMap (Value.vStr "M")
      (by decide) (by decide) (by decide) (by decide)
  · exact (C6_normalization demographicsSchema.normalization_maps "patient_sex"
      (Value.vStr "xyz") demographicsSchema []).2.2.2.2.1 sexMap
      (by decide) (by decide) (by decide) (by decide)
  · exact (C6_normalization demographicsSchema.normalization_maps "patient_sex"
      (Value.vStr "  ") demographicsSchema []).2.2.1 "  " (by decide) (by decide)
  · exact (C6_normalization demographicsSchema.normalization_maps "patient_sex"
      Value.vNone demographicsSchema []).2.1 (by decide)
  · exact (C6_normalization demographicsSchema.normalization_maps "case_number"
      (Value.vStr "F1") demographicsSchema []).1 (by decide)

/-- C1 counterexample: an `AuditLogger` constructed with the empty-string
salt has `hash_ids = True` (a configured salt in the code's own sense,
`id_hash_salt is not None`), yet `hash_value` with the stored empty salt
is the identity — so the summary writes the raw identifier `"P1"` under
the `hashed_ids` key. -/
theorem C1_counterexample :
    (AuditLogger.mk true 3 (some "")).hash_ids = true
    ∧ (AuditLogger.mk true 3 (some "")).summarize_ids ["P1"]
        = { count := 1, sample := some (IdSample.hashed ["P1"]) }
    ∧ "P1" ∈ (["P1"] : List String) := by
  refine ⟨rfl, by decide, by decide⟩

/-- C1 amended: every summary carries the identifier count; no identifier
values are written unless sampling was explicitly enabled; raw values are
written only when no salt was configured at all; and whenever a
*non-empty* salt is configured, any written sample is exactly the
salted-hashed bounded sample. (The counterexample forces the "non-empty"
qualification: an empty-string salt is stored as `""`, which `hash_value`
treats as absent.) -/
theorem C1_summary_invariants (a : AuditLogger) (ids : List String) :
    (a.summarize_ids ids).count = ids.length
    ∧ (a.include_id_samples = false → (a.summarize_ids ids).sample = none)
    ∧ (∀ l, (a.summarize_ids ids).sample = some (IdSample.raw l) → a.id_hash_salt = none)
    ∧ (∀ s, a.id_hash_salt = some s → s ≠ "" →
        (a.summarize_ids ids).sample = none
        ∨ writtenIdValues (a.summarize_ids ids)
            = (ids.take a.id_sample_size).map (fun x => hash_value x (some s))) := by
  refine ⟨rfl, ?_, ?_, ?_⟩
  · intro h; simp [AuditLogger.summarize_ids, h]
  · intro l hl
    by_cases hinc : a.include_id_samples = true ∧ ids ≠ []
    · simp only [AuditLogger.summarize_ids, if_pos hinc] at hl
      by_cases hh : a.hash_ids = true
      · simp [hh] at hl
      · cases hsalt : a.id_hash_salt with
        | none => rfl
        | some s => simp [AuditLogger.hash_ids, hsalt] at hh
    · simp [AuditLogger.summarize_ids, if_neg hinc] at hl
  · intro s hs hsne
    by_cases hinc : a.include_id_samples = true ∧ ids ≠ []
    · right
      have hh : a.hash_ids = true := by simp [AuditLogger.hash_ids, hs]
      have hst : a.storedSalt = s := by simp [AuditLogger.storedSalt, hs]
      simp [writtenIdValues, AuditLogger.summarize_ids, if_pos hinc, hh, hst]
    · left
      simp [AuditLogger.summarize_ids, if_neg hinc]

/-- Witness for C1 on a sink with salt `"k"`, sampling enabled, and two
identifiers. -/
theorem C1_witness :
    ((AuditLogger.mk true 3 (some "k")).summarize_ids ["P1", "P2"]).count = 2
    ∧ (((AuditLogger.mk true 3 (some "k")).summarize_ids ["P1", "P2"]).sample = none
       ∨ writtenIdValues ((AuditLogger.mk true 3 (some "k")).summarize_ids ["P1", "P2"])
           = (["P1", "P2"].take 3).map (fun x => hash_value x (some "k"))) := by
  have h := C1_summary_invariants (AuditLogger.mk true 3 (some "k")) ["P1", "P2"]
  exact ⟨h.1, h.2.2.2 "k" rfl (by decide)⟩

/-- C5 counterexample: a one-record collection lacking the requested
column `"b"` — SHAPE keeps only the present columns, so the result does
not carry every include field. -/
theorem C5_counterexample :
    (_enforce_order (pdDataFrame [[("a", Value.vStr "1")]]) (some ["a", "b"])).cols = ["a"]
    ∧ (["a"] : List String) ≠ ["a", "b"] := by
  refine ⟨by decide, by decide⟩

/-- C5 amended: SHAPE keeps exactly the include fields that occur among
the collection's columns, in include order — all of them when every
include field is present; when none occurs, and in particular when
validation produced zero surviving Records, the result is a well-formed
empty table that still carries every requested column. -/
theorem C5_enforce_order_shape (df : DataFrame) (req : List String) :
    ((∀ c ∈ req, c ∈ df.cols) → (_enforce_order df (some req)).cols = req)
    ∧ (_enforce_order df (some req)).cols
        = (if req.filter (fun c => decide (c ∈ df.cols)) = []
           then req else req.filter (fun c => decide (c ∈ df.cols)))
    ∧ _enforce_order (pdDataFrame []) (some req) = { cols := req, recs := [] } := by
  refine ⟨?_, ?_, ?_⟩
  · intro hall
    have hfilter : req.filter (fun c => decide (c ∈ df.cols)) = req :=
      List.filter_eq_self.2 (fun a ha => by simpa using hall a ha)
    simp only [_enforce_order, hfilter]
    split <;> rfl
  · simp only [_enforce_order]
    by_cases hc : req.filter (fun c => decide (c ∈ df.cols)) = []
    · simp [hc]
    · simp [hc]
  · simp [_enforce_order, pdDataFrame, dedupFirst, dedupFirstGo]

/-- Witness for C5: both requested columns present, in requested order. -/
theorem C5_witness :
    (_enforce_order (pdDataFrame [[("a", Value.vStr "1"), ("b", Value.vInt 2)]])
        (some ["b", "a"])).cols = ["b", "a"] :=
  (C5_enforce_order_shape (pdDataFrame [[("a", Value.vStr "1"), ("b", Value.vInt 2)]])
    ["b", "a"]).1 (by decide)

theorem loggedWarnings_of_le (es : List String) (h : es.length ≤ 10) :
    loggedWarnings es = es := by
  simp [loggedWarnings, List.take_of_length_le h, Nat.not_lt.2 h]

theorem loggedWarnings_of_gt (es : List String) (h : 10 < es.length) :
    loggedWarnings es
      = es.take 10 ++ ["... plus " ++ toString (es.length - 10)
          ++ " more validation issues"] := by
  simp [loggedWarnings, h]

theorem loggedWarnings_length_le (es : List String) :
    (loggedWarnings es).length ≤ 11 := by
  unfold loggedWarnings
  rw [List.length_append, List.length_take]
  by_cases h : 10 < es.length
  · rw [if_pos h]
    simp only [List.length_cons, List.length_nil]
    omega
  · rw [if_neg h]
    simp only [List.length_nil]
    omega

/-- C8: row validation is total — a bad row never aborts the batch: each
failing row contributes exactly one error description carrying its row
index and message and is dropped, each valid row yields exactly one Record
(in order), valid plus failing rows account for the whole batch, and the
emitted report is capped at the first 10 messages plus one
remainder-count line (never more than 11 lines). -/
theorem C8_validation_collects_errors (rows : List Row) (v : Row → Except String Row) :
    (_validate_with_model rows v).1 = rows.filterMap (fun r => (v r).toOption)
    ∧ (_validate_with_model rows v).2 = errLinesFrom v 0 rows
    ∧ (_validate_with_model rows v).1.length + (_validate_with_model rows v).2.length
        = rows.length
    ∧ (∀ (j : Nat) (hj : j < rows.length) (e : String),
        v (rows.get ⟨j, hj⟩) = Except.error e →
        errLine j e ∈ (_validate_with_model rows v).2)
    ∧ ((_validate_with_model rows v).2.length ≤ 10 →
        loggedWarnings (_validate_with_model rows v).2 = (_validate_with_model rows v).2)
    ∧ (10 < (_validate_with_model rows v).2.length →
        loggedWarnings (_validate_with_model rows v).2
          = (_validate_with_model rows v).2.take 10
            ++ ["... plus " ++ toString ((_validate_with_model rows v).2.length - 10)
                ++ " more validation issues"])
    ∧ (loggedWarnings (_validate_with_model rows v).2).length ≤ 11 := by
  have heq := validate_with_model_eq rows v
  have h1 : (_validate_with_model rows v).1 = okRecords v rows := by rw [heq]
  have h2 : (_validate_with_model rows v).2 = errLinesFrom v 0 rows := by rw [heq]
  refine ⟨h1, h2, ?_, ?_, loggedWarnings_of_le _, loggedWarnings_of_gt _,
    loggedWarnings_length_le _⟩
  · rw [h1, h2]
    exact okRecords_errLinesFrom_length v rows 0
  · intro j hj e hv
    rw [h2]
    have := errLinesFrom_mem v rows 0 j hj e hv
    rwa [Nat.zero_add] at this

/-- Witness for C8: a batch of one valid and one invalid row under
`vBoom`. -/
theorem C8_witness :
    (_validate_with_model [[("a", Value.vStr "1")], []] vBoom).1 = [[("a", Value.vStr "1")]]
    ∧ errLine 1 "boom" ∈ (_validate_with_model [[("a", Value.vStr "1")], []] vBoom).2
    ∧ loggedWarnings (_validate_with_model [[("a", Value.vStr "1")], []] vBoom).2
        = (_validate_with_model [[("a", Value.vStr "1")], []] vBoom).2 := by
  have h := C8_validation_collects_errors [[("a", Value.vStr "1")], []] vBoom
  refine ⟨h.1.trans (by decide), ?_, h.2.2.2.2.1 (by decide)⟩
  exact h.2.2.2.1 1 (by decide) "boom" rfl

/-- C2: whenever the planner succeeds on a non-`None` request, the include
fields are exactly the deduplicated request in original order, the fetch
fields are exactly the described computation (deduplicated request minus
keys of `derived_deps`, with each requested derived field's dependencies
appended in request order when not already present) — hence fetch_fields
contains every non-derived include field and every dependency of every
requested derived field; and deduplication preserves first-occurrence
order (a duplicate-free sublist of the request). -/
theorem C2_planner_fetch_include (spec : ResourceSpec) (by_ : String)
    (l ff inc : List String)
    (h : _plan_fetch_and_include_for spec by_ (some l) = Except.ok (some ff, some inc)) :
    inc = dedupFirst l
    ∧ ff = fetchFieldsDescribed spec (dedupFirst l)
    ∧ (∀ x ∈ inc, alookup x spec.derived_deps = none → x ∈ ff)
    ∧ (∀ name ∈ l, ∀ dep ∈ (alookup name spec.derived_deps).getD [], dep ∈ ff)
    ∧ (dedupFirst l).Sublist l ∧ (dedupFirst l).Nodup := by
  have hinv : ff = fetchFieldsDescribed spec (dedupFirst l) ∧ inc = dedupFirst l := by
    by_cases hc : by_ ≠ "cases" ∧ ∃ f ∈ dedupFirst l, f ∈ spec.requires_cases
    · simp [_plan_fetch_and_include_for, hc] at h
    · simp only [_plan_fetch_and_include_for, if_neg hc, Except.ok.injEq, Prod.mk.injEq,
        Option.some.injEq] at h
      exact ⟨h.1.symm, h.2.symm⟩
  obtain ⟨hff, hinc⟩ := hinv
  subst hff hinc
  refine ⟨rfl, rfl, ?_, ?_, dedupFirst_sublist l, dedupFirst_nodup l⟩
  · intro x hx hder
    refine mem_planFold_left spec (dedupFirst l) _ x ?_
    exact List.mem_filter.2 ⟨hx, by simp [hder]⟩
  · intro name hname dep hdep
    exact mem_planFold_dep spec (dedupFirst l) name dep
      ((mem_dedupFirst name l).2 hname) hdep _

/-- Witness for C2: spec scenario 2 — requesting only the derived
`patient_age_at_admission` under grouping "cases" plans both of its base
dependencies into the fetch fields. -/
theorem C2_witness :
    (["patient_age_at_admission"] : List String)
        = dedupFirst ["patient_age_at_admission"]
    ∧ "patient_date_of_birth" ∈ ["patient_date_of_birth", "case_admission_time"]
    ∧ "case_admission_time" ∈ ["patient_date_of_birth", "case_admission_time"] := by
  have h := C2_planner_fetch_include DEMOGRAPHICS_SPEC "cases" ["patient_age_at_admission"]
    ["patient_date_of_birth", "case_admission_time"] ["patient_age_at_admission"] rfl
  exact ⟨h.1,
    h.2.2.2.1 "patient_age_at_admission" (by decide) "patient_date_of_birth" (by decide),
    h.2.2.2.1 "patient_age_at_admission" (by decide) "case_admission_time" (by decide)⟩

/-- C7: provided the query function treats the designated identifier
parameter element-wise (`hom`: rows for a concatenated identifier list are
the concatenation of the rows per part — the `WHERE id IN (...)` contract
the spec's equivalence presupposes), batched iteration over a plain
sequence longer than the chunk size `K > 0` opens exactly one session,
invokes the query function once per chunk, splits the sequence into
ordered non-overlapping chunks of at most `K` whose concatenation is the
original sequence, and yields exactly the rows of the single unchunked
streaming fetch, in the same order; when the designated parameter is not a
plain sequence, or is empty or not over the threshold, batched iteration
is identical to the plain streaming fetch. -/
theorem C7_batched_iter_refines_iter (fet : Fetcher) (p : String) (K : Nat)
    (overrides : Params) (hK : 0 < K)
    (hom : ∀ (ps : Params) (a b : List String),
      fet.func (pset ps p (ParamValue.pvSeq (a ++ b)))
        = fet.func (pset ps p (ParamValue.pvSeq a))
          ++ fet.func (pset ps p (ParamValue.pvSeq b))) :
    (∀ l : List String, fet.resolveParam overrides p = some (ParamValue.pvSeq l) →
      K < l.length →
      (fet.batched_iter p K overrides).rows = (fet.iterRun overrides).rows
      ∧ (fet.batched_iter p K overrides).sessions = 1
      ∧ (fet.batched_iter p K overrides).calls = (chunksOf K l).length
      ∧ (∀ c ∈ chunksOf K l, c.length ≤ K ∧ c ≠ [])
      ∧ (chunksOf K l).flatten = l)
    ∧ (∀ l : List String, fet.resolveParam overrides p = some (ParamValue.pvSeq l) →
        l.length ≤ K → fet.batched_iter p K overrides = fet.iterRun overrides)
    ∧ (isBatchableSequence (fet.resolveParam overrides p) = false →
        fet.batched_iter p K overrides = fet.iterRun overrides) := by
  refine ⟨?_, ?_, ?_⟩
  · intro l hres hlong
    have hM : pmerge fet.defaults overrides p = some (ParamValue.pvSeq l) := by
      rw [pmerge_lookup]
      rw [Fetcher.resolveParam] at hres
      exact hres
    have hlne : l ≠ [] := by
      intro hnil
      rw [hnil] at hlong
      simp at hlong
    have hnot : ¬(l.length = 0 ∨ l.length ≤ K) := by
      rintro (h0 | hle) <;> omega
    have hbatched : fet.batched_iter p K overrides
        = { sessions := 1, calls := (chunksOf K l).length,
            rows := (chunksOf K l).flatMap (fun c =>
              (fet.func (pmerge fet.defaults
                (pset overrides p (ParamValue.pvSeq c)))).map
                (applyTransform fet.transform)) } := by
      simp only [Fetcher.batched_iter, hres]
      rw [if_neg hnot]
    rw [hbatched]
    refine ⟨?_, rfl, rfl, chunksOf_length_le K l, chunksOf_flatten K hK l⟩
    have hchne : chunksOf K l ≠ [] := by
      cases l with
      | nil => exact absurd rfl hlne
      | cons x xs =>
        rw [chunksOf_cons, if_neg (Nat.pos_iff_ne_zero.1 hK)]
        simp
    show (chunksOf K l).flatMap (fun c =>
        (fet.func (pmerge fet.defaults (pset overrides p (ParamValue.pvSeq c)))).map
          (applyTransform fet.transform))
      = (fet.func (pmerge fet.defaults overrides)).map (applyTransform fet.transform)
    calc (chunksOf K l).flatMap (fun c =>
          (fet.func (pmerge fet.defaults (pset overrides p (ParamValue.pvSeq c)))).map
            (applyTransform fet.transform))
        = (chunksOf K l).flatMap (fun c =>
            (fet.func (pset (pmerge fet.defaults overrides) p (ParamValue.pvSeq c))).map
              (applyTransform fet.transform)) := by
          simp only [pmerge_pset_right]
      _ = ((chunksOf K l).flatMap (fun c =>
            fet.func (pset (pmerge fet.defaults overrides) p (ParamValue.pvSeq c)))).map
            (applyTransform fet.transform) := by
          rw [List.map_flatMap]
      _ = (fet.func (pset (pmerge fet.defaults overrides) p
            (ParamValue.pvSeq (chunksOf K l).flatten))).map
            (applyTransform fet.transform) := by
          rw [func_flatten fet.func p hom (pmerge fet.defaults overrides)
            (chunksOf K l) hchne]
      _ = (fet.func (pmerge fet.defaults overrides)).map (applyTransform fet.transform) := by
          rw [chunksOf_flatten K hK l, pset_self_of_lookup _ _ _ hM]
  · intro l hres hle
    simp only [Fetcher.batched_iter, hres]
    rw [if_pos (Or.inr hle)]
  · intro hres
    unfold Fetcher.batched_iter
    cases hr : fet.resolveParam overrides p with
    | none => rfl
    | some v =>
      cases v with
      | pvSeq l =>
        rw [hr] at hres
        simp [isBatchableSequence] at hres
      | pvNone => rfl
      | pvStr s => rfl
      | pvBytes => rfl
      | pvDict => rfl

/-- Witness for C7: a fetcher whose query function maps each identifier in
the `"ids"` parameter to one row, five identifiers, chunk size 2. -/
theorem C7_witness :
    ((Fetcher.mk
        (fun ps => match ps "ids" with
          | some (ParamValue.pvSeq xs) => xs.map (fun x => [("patient_id", Value.vStr x)])
          | _ => [])
        pEmpty none).batched_iter "ids" 2
        (pset pEmpty "ids" (ParamValue.pvSeq ["a", "b", "c", "d", "e"]))).rows
      = ((Fetcher.mk
        (fun ps => match ps "ids" with
          | some (ParamValue.pvSeq xs) => xs.map (fun x => [("patient_id", Value.vStr x)])
          | _ => [])
        pEmpty none).iterRun
        (pset pEmpty "ids" (ParamValue.pvSeq ["a", "b", "c", "d", "e"]))).rows
    ∧ ((Fetcher.mk
        (fun ps => match ps "ids" with
          | some (ParamValue.pvSeq xs) => xs.map (fun x => [("patient_id", Value.vStr x)])
          | _ => [])
        pEmpty none).batched_iter "ids" 2
        (pset pEmpty "ids" (ParamValue.pvSeq ["a", "b", "c", "d", "e"]))).sessions = 1
    ∧ ((Fetcher.mk
        (fun ps => match ps "ids" with
          | some (ParamValue.pvSeq xs) => xs.map (fun x => [("patient_id", Value.vStr x)])
          | _ => [])
        pEmpty none).batched_iter "ids" 2
        (pset pEmpty "ids" (ParamValue.pvSeq ["a", "b", "c", "d", "e"]))).calls
      = (chunksOf 2 ["a", "b", "c", "d", "e"]).length := by
  have h := (C7_batched_iter_refines_iter
    (Fetcher.mk
      (fun ps => match ps "ids" with
        | some (ParamValue.pvSeq xs) => xs.map (fun x => [("patient_id", Value.vStr x)])
        | _ => [])
      pEmpty none)
    "ids" 2 (pset pEmpty "ids" (ParamValue.pvSeq ["a", "b", "c", "d", "e"]))
    (by decide)
    (fun ps a b => by simp [pset, List.map_append])).1
    ["a", "b", "c", "d", "e"] rfl (by decide)
  exact ⟨h.1, h.2.1, h.2.2.1⟩

/-- Result shape of `run_resource` once registry, grouping mode, plan and
fetcher choice have all passed: the query function is invoked exactly
once, and the call either propagates its failure verbatim or returns a
shaped table. -/
theorem run_resource_fetch_shape (db : Session) (registry : List (String × ResourceSpec))
    (resource by_ : String) (ids : List String) (fields : Option (List String))
    (hash_salt : Option String) (spec₀ : ResourceSpec)
    (hreg : alookup resource registry = some spec₀)
    (hby : by_ = "cases" ∨ by_ = "patients")
    (ff inc : Option (List String))
    (hplan : _plan_fetch_and_include_for spec₀ by_ fields = Except.ok (ff, inc))
    (f : RegistryQueryFunc) (hfl : alookup by_ spec₀.fetchers = some f) :
    (∃ e, run_resource db registry resource by_ ids fields hash_salt
        = (Except.error (PipelineError.upstreamQueryFailure e), 1))
    ∨ (∃ df, run_resource db registry resource by_ ids fields hash_salt
        = (Except.ok df, 1)) := by
  cases hq : f db (runParams by_ ids ff) with
  | error e =>
    left
    simp only [run_resource, hreg]
    rw [if_pos hby]
    simp only [hplan, hfl, hq]
    exact ⟨e, rfl⟩
  | ok rows =>
    right
    simp only [run_resource, hreg]
    rw [if_pos hby]
    simp only [hplan, hfl, hq]
    exact ⟨_, rfl⟩

/-- C9 counterexample: with a resource that is not registered *and* a
grouping mode that is invalid, the call fails with `UnknownResource`, not
`InvalidGroupingMode`, because the registry check runs first — so "fails
with InvalidGroupingMode exactly when the grouping mode is neither
'cases' nor 'patients'" is false as stated at this input. -/
theorem C9_counterexample :
    (run_resource emptyStoreSession REGISTRY "nope" "bogus" ["P1"] none none).1
      = Except.error PipelineError.unknownResource
    ∧ ¬("bogus" = "cases" ∨ "bogus" = "patients")
    ∧ PipelineError.unknownResource ≠ PipelineError.invalidGroupingMode := by
  refine ⟨rfl, by decide, by decide⟩

/-- C9 amended: the three checks run in order, and each failure condition
is exact within its scope — `UnknownResource` exactly when the resource is
unregistered; for a registered resource, `InvalidGroupingMode` exactly
when the grouping mode is invalid; for a registered resource under a valid
mode, `GroupingModeFieldMismatch` exactly when some requested field is in
`requires_cases` while the mode is not "cases"; and on each of these
errors the external query function is never invoked (zero query calls),
over every external store `db`. -/
theorem C9_error_taxonomy (db : Session) (registry : List (String × ResourceSpec))
    (resource by_ : String) (ids : List String) (fields : Option (List String))
    (hash_salt : Option String) :
    ((run_resource db registry resource by_ ids fields hash_salt).1
        = Except.error PipelineError.unknownResource
      ↔ alookup resource registry = none)
    ∧ (∀ spec, alookup resource registry = some spec →
        ((run_resource db registry resource by_ ids fields hash_salt).1
            = Except.error PipelineError.invalidGroupingMode
          ↔ ¬(by_ = "cases" ∨ by_ = "patients")))
    ∧ (∀ spec, alookup resource registry = some spec →
        (by_ = "cases" ∨ by_ = "patients") →
        ((run_resource db registry resource by_ ids fields hash_salt).1
            = Except.error PipelineError.groupingModeFieldMismatch
          ↔ (by_ ≠ "cases" ∧ ∃ lq, fields = some lq ∧ ∃ f ∈ lq, f ∈ spec.requires_cases)))
    ∧ (((run_resource db registry resource by_ ids fields hash_salt).1
          = Except.error PipelineError.unknownResource
        ∨ (run_resource db registry resource by_ ids fields hash_salt).1
          = Except.error PipelineError.invalidGroupingMode
        ∨ (run_resource db registry resource by_ ids fields hash_salt).1
          = Except.error PipelineError.groupingModeFieldMismatch)
        → (run_resource db registry resource by_ ids fields hash_salt).2 = 0) := by
  cases hreg : alookup resource registry with
  | none =>
    have hrun : run_resource db registry resource by_ ids fields hash_salt
        = (Except.error PipelineError.unknownResource, 0) := by
      simp only [run_resource, hreg]
    rw [hrun]
    refine ⟨by simp, ?_, ?_, fun _ => rfl⟩
    · intro spec hspec
      exact absurd hspec (by simp)
    · intro spec hspec
      exact absurd hspec (by simp)
  | some spec₀ =>
    by_cases hby : by_ = "cases" ∨ by_ = "patients"
    · cases hf : fields with
      | none =>
        cases hfl : alookup by_ spec₀.fetchers with
        | none =>
          have hrun : run_resource db registry resource by_ ids none hash_salt
              = (Except.error PipelineError.unsupportedGroupingFetcher, 0) := by
            simp only [run_resource, hreg, _plan_fetch_and_include_for]
            rw [if_pos hby]
            simp only [hfl]
          rw [hrun]
          refine ⟨iff_of_false (by simp) (by simp), ?_, ?_, fun _ => rfl⟩
          · intro spec hspec
            exact iff_of_false (by simp) (not_not_intro hby)
          · intro spec hspec hby2
            refine iff_of_false (by simp) ?_
            rintro ⟨-, lq, hlq, -⟩
            cases hlq
        | some f =>
          have hshape := run_resource_fetch_shape db registry resource by_ ids none
            hash_salt spec₀ hreg hby none none rfl f hfl
          have hne : ∀ E : PipelineError,
              (E = PipelineError.unknownResource ∨ E = PipelineError.invalidGroupingMode
                ∨ E = PipelineError.groupingModeFieldMismatch) →
              (run_resource db registry resource by_ ids none hash_salt).1
                ≠ Except.error E := by
            rcases hshape with ⟨e, hrun⟩ | ⟨df, hrun⟩ <;> rw [hrun] <;>
              rintro E (rfl | rfl | rfl) <;> simp
          refine ⟨iff_of_false (hne _ (Or.inl rfl)) (by simp), ?_, ?_, ?_⟩
          · intro spec hspec
            exact iff_of_false (hne _ (Or.inr (Or.inl rfl))) (not_not_intro hby)
          · intro spec hspec hby2
            refine iff_of_false (hne _ (Or.inr (Or.inr rfl))) ?_
            rintro ⟨-, lq, hlq, -⟩
            cases hlq
          · rintro (h | h | h)
            · exact absurd h (hne _ (Or.inl rfl))
            · exact absurd h (hne _ (Or.inr (Or.inl rfl)))
            · exact absurd h (hne _ (Or.inr (Or.inr rfl)))
      | some lq =>
        by_cases hcond : by_ ≠ "cases" ∧ ∃ f ∈ dedupFirst lq, f ∈ spec₀.requires_cases
        · have hplan : _plan_fetch_and_include_for spec₀ by_ (some lq)
              = Except.error PlanError.groupingModeFieldMismatch := by
            simp only [_plan_fetch_and_include_for]
            rw [if_pos hcond]
          have hrun : run_resource db registry resource by_ ids (some lq) hash_salt
              = (Except.error PipelineError.groupingModeFieldMismatch, 0) := by
            simp only [run_resource, hreg]
            rw [if_pos hby]
            simp only [hplan]
          rw [hrun]
          refine ⟨iff_of_false (by simp) (by simp), ?_, ?_, fun _ => rfl⟩
          · intro spec hspec
            exact iff_of_false (by simp) (not_not_intro hby)
          · intro spec hspec hby2
            cases hspec
            refine iff_of_true (by simp) ?_
            obtain ⟨hne, f, hfmem, hfreq⟩ := hcond
            exact ⟨hne, lq, rfl, f, (mem_dedupFirst f lq).1 hfmem, hfreq⟩
        · have hplan : _plan_fetch_and_include_for spec₀ by_ (some lq)
              = Except.ok
                  (some (planFold spec₀ (dedupFirst lq)
                    ((dedupFirst lq).filter
                      (fun f => (alookup f spec₀.derived_deps).isNone))),
                   some (dedupFirst lq)) := by
            simp only [_plan_fetch_and_include_for]
            rw [if_neg hcond]
            rfl
          cases hfl : alookup by_ spec₀.fetchers with
          | none =>
            have hrun : run_resource db registry resource by_ ids (some lq) hash_salt
                = (Except.error PipelineError.unsupportedGroupingFetcher, 0) := by
              simp only [run_resource, hreg]
              rw [if_pos hby]
              simp only [hplan, hfl]
            rw [hrun]
            refine ⟨iff_of_false (by simp) (by simp), ?_, ?_, fun _ => rfl⟩
            · intro spec hspec
              exact iff_of_false (by simp) (not_not_intro hby)
            · intro spec hspec hby2
              cases hspec
              refine iff_of_false (by simp) ?_
              rintro ⟨hne, lq', hlq', f, hfmem, hfreq⟩
              cases hlq'
              exact hcond ⟨hne, f, (mem_dedupFirst f lq).2 hfmem, hfreq⟩
          | some f =>
            have hshape := run_resource_fetch_shape db registry resource by_ ids
              (some lq) hash_salt spec₀ hreg hby
              (some (planFold spec₀ (dedupFirst lq)
                ((dedupFirst lq).filter
                  (fun g => (alookup g spec₀.derived_deps).isNone))))
              (some (dedupFirst lq)) hplan f hfl
            have hne : ∀ E : PipelineError,
                (E = PipelineError.unknownResource ∨ E = PipelineError.invalidGroupingMode
                  ∨ E = PipelineError.groupingModeFieldMismatch) →
                (run_resource db registry resource by_ ids (some lq) hash_salt).1
                  ≠ Except.error E := by
              rcases hshape with ⟨e, hrun⟩ | ⟨df, hrun⟩ <;> rw [hrun] <;>
                rintro E (rfl | rfl | rfl) <;> simp
            refine ⟨iff_of_false (hne _ (Or.inl rfl)) (by simp), ?_, ?_, ?_⟩
            · intro spec hspec
              exact iff_of_false (hne _ (Or.inr (Or.inl rfl))) (not_not_intro hby)
            · intro spec hspec hby2
              cases hspec
              refine iff_of_false (hne _ (Or.inr (Or.inr rfl))) ?_
              rintro ⟨hnec, lq', hlq', g, hgmem, hgreq⟩
              cases hlq'
              exact hcond ⟨hnec, g, (mem_dedupFirst g lq).2 hgmem, hgreq⟩
            · rintro (h | h | h)
              · exact absurd h (hne _ (Or.inl rfl))
              · exact absurd h (hne _ (Or.inr (Or.inl rfl)))
              · exact absurd h (hne _ (Or.inr (Or.inr rfl)))
    · have hrun : run_resource db registry resource by_ ids fields hash_salt
          = (Except.error PipelineError.invalidGroupingMode, 0) := by
        simp only [run_resource, hreg]
        rw [if_neg hby]
      rw [hrun]
      refine ⟨iff_of_false (by simp) (by simp), ?_, ?_, fun _ => rfl⟩
      · intro spec hspec
        exact iff_of_true rfl hby
      · intro spec hspec hby2
        exact absurd hby2 hby

/-- Witness for C9 over a concrete empty store: a registered resource with
an invalid grouping mode fails with `InvalidGroupingMode`; requesting the
case-only field `case_number` under grouping "patients" fails with
`GroupingModeFieldMismatch` with zero query-function invocations (spec
scenario 3). -/
theorem C9_witness :
    (run_resource emptyStoreSession REGISTRY "demographics" "bogus" ["P1"] none none).1
      = Except.error PipelineError.invalidGroupingMode
    ∧ (run_resource emptyStoreSession REGISTRY "demographics" "patients" ["C1"]
        (some ["case_number"]) none).1
      = Except.error PipelineError.groupingModeFieldMismatch
    ∧ (run_resource emptyStoreSession REGISTRY "demographics" "patients" ["C1"]
        (some ["case_number"]) none).2
      = 0 := by
  have h1 := (C9_error_taxonomy emptyStoreSession REGISTRY "demographics" "bogus" ["P1"]
    none none).2.1 DEMOGRAPHICS_SPEC rfl
  have h2 := (C9_error_taxonomy emptyStoreSession REGISTRY "demographics" "patients"
    ["C1"] (some ["case_number"]) none).2.2.1 DEMOGRAPHICS_SPEC rfl (Or.inr rfl)
  have h3 := (C9_error_taxonomy emptyStoreSession REGISTRY "demographics" "patients"
    ["C1"] (some ["case_number"]) none).2.2.2
  have hmis : (run_resource emptyStoreSession REGISTRY "demographics" "patients" ["C1"]
      (some ["case_number"]) none).1
      = Except.error PipelineError.groupingModeFieldMismatch :=
    h2.mpr ⟨by decide, ["case_number"], rfl, "case_number", by decide, by decide⟩
  exact ⟨h1.mpr (by decide), hmis, h3 (Or.inr (Or.inr hmis))⟩

end PDMS
